import Mathlib

/-!
User-management API: the ledger core.

A shallow embedding of `internal/service/service.go` and
`internal/repository/repository.go`.

* The relational store is a record of tables.  A connection (`DB`) holds the
  committed tables, the working copy of the open transaction (if any), the
  `users.id` sequence and the trace of the calls issued to it.
* Every repository method is a function `DB → DB × result`.  Whether the
  driver call behind it fails is read from an `Env`, so that every theorem
  can quantify over the failure points.
* Go's `(value, error)` results are `Except`, a bare `error` is
  `Option GoError` (`none` is `nil`).
-/

namespace UserManagement

/-! ## Errors -/

/-- Go `error` values that occur in the ledger core: the sentinels of the
repository and service packages, the two `pgx` sentinels the code meets, errors
produced by a library (`External`), `fmt.Errorf` without `%w` (`Errorf`, with
the formatted message) and `fmt.Errorf` with `%w` (`Wrap`, with the format
string of the source and the wrapped error). -/
inductive GoError where
  | ErrFailedBeginTx
  | ErrFailedExecuteQuery
  | ErrUserNotFound
  | ErrTaskNotFound
  | ErrInvalidReferrer
  | ErrSetReferrer
  | ErrIsCompletedTask
  | ErrNoRows
  | ErrTxClosed
  | External (msg : String)
  | Errorf (msg : String)
  | Wrap (format : String) (inner : GoError)
  | New (msg : String)
  deriving DecidableEq, Repr

/-- The function `errors.Is`: the error or one of the errors it wraps is the
target.  (`New` stands for an `errors.New` value created inside a function
body, identified by its message.) -/
def GoError.Is : GoError → GoError → Bool
  | .Wrap format inner, target => decide (GoError.Wrap format inner = target) || inner.Is target
  | err, target => decide (err = target)

/-! ## Data model (`internal/models`, `internal/dto`) -/

/-- The `models.User` record; time stamps are instants counted in `Nat`, the
zero `time.Time` is `0`, a `*int` is an `Option Int`. -/
structure User where
  ID : Int
  UserName : String
  Password : String
  Balance : Int
  UpdateBalance : Nat
  Referrer : Option Int
  CreatedAt : Nat
  deriving DecidableEq, Repr

/-- The `models.Task` record. -/
structure Task where
  ID : Int
  Description : String
  Reward : Int
  deriving DecidableEq, Repr

/-- The `dto.UserRegLogDTO` record. -/
structure UserRegLogDTO where
  UserName : String
  Password : String
  deriving DecidableEq, Repr

/-- The `dto.UserLoginDTO` record. -/
structure UserLoginDTO where
  ID : Int
  UserName : String
  deriving DecidableEq, Repr

/-- The `dto.UserStatusDTO` record. -/
structure UserStatusDTO where
  ID : Int
  UserName : String
  Balance : Int
  UpdatedBalance : Nat
  Referrer : Option Int
  CreatedAt : Nat
  deriving DecidableEq, Repr

/-- The `dto.UserLeaderDTO` record. -/
structure UserLeaderDTO where
  ID : Int
  UserName : String
  Balance : Int
  deriving DecidableEq, Repr

/-- The `dto.TaskDTO` record. -/
structure TaskDTO where
  ID : Int
  deriving DecidableEq, Repr

/-- The `dto.ReferrerDTO` record. -/
structure ReferrerDTO where
  Referrer : Int
  deriving DecidableEq, Repr

/-! ## The store -/

/-- The three tables the ledger queries: `users`, `tasks` and
`completed_tasks (user_id, task_id)`, each a list of rows in store order. -/
structure Tables where
  users : List User
  tasks : List Task
  completed_tasks : List (Int × Int)
  deriving DecidableEq, Repr

/-- One call issued to the store: `Begin`, `Commit`, `Rollback` on the
connection or transaction, and one constructor per repository query. -/
inductive Call where
  | Begin
  | Commit
  | Rollback
  | GetUserByNameWithTx
  | CreateUserWithTx
  | GetUserByIDWithTx
  | GetUserByName
  | GetUserByID
  | GetUserLeaderboard
  | SetReferrer
  | AddPoint
  | GetTask
  | IsCompletedTask
  | AddCompletedTask
  deriving DecidableEq, Repr

/-- The state behind the `*pgx.Conn` of `UserRepo`: the committed tables, the
working copy of the open transaction (`none` when no transaction is open, which
is also the state of a `pgx.Tx` after `Commit` or `Rollback`), the last value of
the `users.id` sequence and the calls issued so far, oldest first.  The service
methods run one after the other on the connection, and each of them closes the
transaction it opened. -/
structure DB where
  committed : Tables
  tx : Option Tables
  seq : Int
  trace : List Call
  deriving DecidableEq, Repr

/-- Append a call to the trace. -/
def DB.log (db : DB) (c : Call) : DB :=
  { db with trace := db.trace ++ [c] }

/-- How reading the rows of the leaderboard query goes: without failure, the
query itself fails, `rows.Scan` fails after some rows were delivered, or
`rows.Err` reports a failure after some rows were delivered. -/
inductive RowsFault where
  | none
  | query
  | scan (delivered : Nat) (err : GoError)
  | iteration (delivered : Nat) (err : GoError)
  deriving DecidableEq, Repr

/-- What the surroundings decide for one service call: the instant `NOW()`
evaluates to, for each driver call whether it fails with an error other than
`pgx.ErrNoRows`, and the error of `tx.Commit`, if any.  `AddReferrer` calls
`GetUserByIDWithTx` twice; the second call has its own flag. -/
structure Env where
  now : Nat
  beginFails : Bool
  getUserByNameWithTxFails : Bool
  createUserFails : Bool
  getUserByIDWithTxFails : Bool
  getReferrerByIDWithTxFails : Bool
  getUserByNameFails : Bool
  setReferrerFails : Bool
  addPointFails : Bool
  getTaskFails : Bool
  isCompletedTaskFails : Bool
  addCompletedTaskFails : Bool
  commitErr : Option GoError
  getUserByIDFails : Bool
  getUserLeaderboardFault : RowsFault
  deriving DecidableEq, Repr

/-- The surroundings in which no driver call fails. -/
def Env.healthy (now : Nat) : Env :=
  { now := now, beginFails := false, getUserByNameWithTxFails := false,
    createUserFails := false, getUserByIDWithTxFails := false,
    getReferrerByIDWithTxFails := false, getUserByNameFails := false,
    setReferrerFails := false, addPointFails := false, getTaskFails := false,
    isCompletedTaskFails := false, addCompletedTaskFails := false,
    commitErr := none, getUserByIDFails := false, getUserLeaderboardFault := .none }

/-- The `bcrypt` package as the service uses it: `GenerateFromPassword`
(salted, so a parameter rather than a fixed function) and
`CompareHashAndPassword hash password`, `none` when the password matches. -/
structure Bcrypt where
  GenerateFromPassword : String → Except GoError String
  CompareHashAndPassword : String → String → Option GoError

/-! ### The `pgx` layer -/

/-- The tables a statement sent through the transaction handle runs on:
`ErrTxClosed` when the transaction is no longer open, a driver error when the
surroundings say so, the working copy otherwise. -/
def txTables (fails : Bool) (db : DB) : Except GoError Tables :=
  match db.tx with
  | none => .error .ErrTxClosed
  | some t => if fails then .error (.External "driver") else .ok t

/-- The tables a statement sent on the connection itself (`r.db`) runs on. -/
def connTables (fails : Bool) (db : DB) : Except GoError Tables :=
  if fails then .error (.External "driver") else .ok db.committed

/-- The call `tx.Commit`: publishes the working copy unless the commit fails;
the transaction is closed either way.  On a closed transaction it returns
`ErrTxClosed`. -/
def Commit (e : Env) (db : DB) : DB × Option GoError :=
  match db.tx with
  | none => (db.log .Commit, some .ErrTxClosed)
  | some t =>
    match e.commitErr with
    | some err => ({ db.log .Commit with tx := none }, some err)
    | none => ({ db.log .Commit with committed := t, tx := none }, none)

/-- The call `tx.Rollback`: discards the working copy.  The service ignores its
result. -/
def Rollback (db : DB) : DB :=
  { db.log .Rollback with tx := none }

/-! ### The repository (`internal/repository/repository.go`) -/

/-- The method `UserRepo.BeginTransaction`: the new transaction starts from the
committed tables. -/
def BeginTransaction (e : Env) (db : DB) : DB × Except GoError Unit :=
  if e.beginFails then
    (db.log .Begin, .error (.Wrap "BeginTransaction: %w" .ErrFailedBeginTx))
  else
    ({ db.log .Begin with tx := some db.committed }, .ok ())

/-- The method `UserRepo.GetUserByNameWithTx`
(`SELECT id, username FROM users WHERE username = $1 FOR UPDATE`): only `ID`
and `UserName` are scanned. -/
def GetUserByNameWithTx (e : Env) (db : DB) (name : String) : DB × Except GoError User :=
  match txTables e.getUserByNameWithTxFails db with
  | .error _ =>
    (db.log .GetUserByNameWithTx, .error (.Wrap "GetUserByName:  %w" .ErrFailedExecuteQuery))
  | .ok t =>
    match t.users.find? (fun u => u.UserName == name) with
    | none =>
      (db.log .GetUserByNameWithTx,
        .error (.Wrap "GetUserByNameWithTx: user not found: %w" .ErrNoRows))
    | some u =>
      (db.log .GetUserByNameWithTx,
        .ok { ID := u.ID, UserName := u.UserName, Password := "", Balance := 0,
              UpdateBalance := 0, Referrer := none, CreatedAt := 0 })

/-- Modelled from the spec: the `users` table declaration is not in the source.
The row that `INSERT INTO users (username, password)` creates: the id is the
next value of the sequence, the balance is 0, no referrer, both time stamps are
the current instant. -/
def newUserRow (now : Nat) (id : Int) (name password : String) : User :=
  { ID := id, UserName := name, Password := password, Balance := 0,
    UpdateBalance := now, Referrer := none, CreatedAt := now }

/-- The method `UserRepo.CreateUserWithTx`
(`INSERT INTO users (username, password) VALUES ($1, $2) RETURNING id`).  The
sequence advances whenever the statement runs and is not part of the
transaction. -/
def CreateUserWithTx (e : Env) (db : DB) (user : User) : DB × Except GoError Int :=
  match txTables e.createUserFails db with
  | .error _ =>
    (db.log .CreateUserWithTx, .error (.Wrap "CreateUser:  %w" .ErrFailedExecuteQuery))
  | .ok t =>
    ({ db.log .CreateUserWithTx with
        seq := db.seq + 1
        tx := some { t with
          users := t.users ++ [newUserRow e.now (db.seq + 1) user.UserName user.Password] } },
      .ok (db.seq + 1))

/-- The method `UserRepo.GetUserByIDWithTx`
(`SELECT id, username, password, balance, referrer FROM users WHERE id = $1 FOR UPDATE`). -/
def GetUserByIDWithTx (fails : Bool) (db : DB) (id : Int) : DB × Except GoError User :=
  match txTables fails db with
  | .error _ =>
    (db.log .GetUserByIDWithTx, .error (.Wrap "GetUserByIDWithTx: %w" .ErrFailedExecuteQuery))
  | .ok t =>
    match t.users.find? (fun u => u.ID == id) with
    | none =>
      (db.log .GetUserByIDWithTx,
        .error (.Wrap "GetUserByIDWithTx: user not found: %w" .ErrNoRows))
    | some u =>
      (db.log .GetUserByIDWithTx,
        .ok { ID := u.ID, UserName := u.UserName, Password := u.Password,
              Balance := u.Balance, UpdateBalance := 0, Referrer := u.Referrer,
              CreatedAt := 0 })

/-- The method `UserRepo.GetUserByName`
(`SELECT id, username, password FROM users WHERE username = $1`, on the
connection). -/
def GetUserByName (e : Env) (db : DB) (name : String) : DB × Except GoError User :=
  match connTables e.getUserByNameFails db with
  | .error _ =>
    (db.log .GetUserByName, .error (.Wrap "GetUserByName:  %w" .ErrFailedExecuteQuery))
  | .ok t =>
    match t.users.find? (fun u => u.UserName == name) with
    | none => (db.log .GetUserByName, .error (.Wrap "GetUserByName:  %w" .ErrUserNotFound))
    | some u =>
      (db.log .GetUserByName,
        .ok { ID := u.ID, UserName := u.UserName, Password := u.Password, Balance := 0,
              UpdateBalance := 0, Referrer := none, CreatedAt := 0 })

/-- The method `UserRepo.GetUserByID`
(`SELECT id, username, password, balance, updated_balance, referrer, created_at
FROM users WHERE id = $1`, on the connection).  Every error of the scan,
`pgx.ErrNoRows` included, is answered with `ErrFailedExecuteQuery`. -/
def GetUserByID (e : Env) (db : DB) (id : Int) : DB × Except GoError User :=
  match connTables e.getUserByIDFails db with
  | .error _ => (db.log .GetUserByID, .error (.Wrap "GetUserByID: %w" .ErrFailedExecuteQuery))
  | .ok t =>
    match t.users.find? (fun u => u.ID == id) with
    | none => (db.log .GetUserByID, .error (.Wrap "GetUserByID: %w" .ErrFailedExecuteQuery))
    | some u => (db.log .GetUserByID, .ok u)

/-- The rows of `SELECT id, username, balance FROM users ORDER BY balance DESC
LIMIT 10`.  The statement leaves the order of users with equal balance to the
store; here they keep their table order. -/
def leaderboardRows (t : Tables) : List UserLeaderDTO :=
  ((t.users.insertionSort (fun a b => b.Balance ≤ a.Balance)).take 10).map
    (fun u => { ID := u.ID, UserName := u.UserName, Balance := u.Balance })

/-- The method `UserRepo.GetUserLeaderboard`: on a failure it returns the rows
appended so far together with the error. -/
def GetUserLeaderboard (e : Env) (db : DB) : DB × List UserLeaderDTO × Option GoError :=
  match e.getUserLeaderboardFault with
  | .query =>
    (db.log .GetUserLeaderboard, [],
      some (.Wrap "GetUserLeaderboard: %w" .ErrFailedExecuteQuery))
  | .scan delivered err =>
    (db.log .GetUserLeaderboard, (leaderboardRows db.committed).take delivered,
      some (.Wrap "GetUserLeaderboard: failed to parse rows: %w" err))
  | .iteration delivered err =>
    (db.log .GetUserLeaderboard, (leaderboardRows db.committed).take delivered,
      some (.Wrap "GetUserLeaderboard: error during rows iteration: %w" err))
  | .none => (db.log .GetUserLeaderboard, leaderboardRows db.committed, none)

/-- The method `UserRepo.SetReferrer`
(`UPDATE users SET referrer = $1 WHERE id = $2`). -/
def SetReferrer (e : Env) (db : DB) (userID referrer : Int) : DB × Option GoError :=
  match txTables e.setReferrerFails db with
  | .error _ => (db.log .SetReferrer, some (.Wrap "SetReferrer:  %w" .ErrFailedExecuteQuery))
  | .ok t =>
    ({ db.log .SetReferrer with
        tx := some { t with
          users := t.users.map
            (fun u => if u.ID == userID then { u with Referrer := some referrer } else u) } },
      none)

/-- The method `UserRepo.AddPoint`
(`UPDATE users SET balance = balance + $1, updated_balance = NOW() WHERE id = $2`).
The sum is computed by the store; a sum outside the column's range is one of
the failures of the statement. -/
def AddPoint (e : Env) (db : DB) (userID points : Int) : DB × Option GoError :=
  match txTables e.addPointFails db with
  | .error _ => (db.log .AddPoint, some (.Wrap "AddPoint:  %w" .ErrFailedExecuteQuery))
  | .ok t =>
    ({ db.log .AddPoint with
        tx := some { t with
          users := t.users.map
            (fun u => if u.ID == userID then
              { u with Balance := u.Balance + points, UpdateBalance := e.now } else u) } },
      none)

/-- The method `UserRepo.GetTask`
(`SELECT id, description, reward FROM tasks WHERE id = $1`, on the connection). -/
def GetTask (e : Env) (db : DB) (taskID : Int) : DB × Except GoError Task :=
  match connTables e.getTaskFails db with
  | .error _ => (db.log .GetTask, .error (.Wrap "GetTask:  %w" .ErrFailedExecuteQuery))
  | .ok t =>
    match t.tasks.find? (fun k => k.ID == taskID) with
    | none => (db.log .GetTask, .error (.Wrap "GetTask:  %w" .ErrTaskNotFound))
    | some k => (db.log .GetTask, .ok k)

/-- The method `UserRepo.IsCompletedTask`
(`SELECT EXISTS (SELECT 1 FROM completed_tasks WHERE user_id = $1 AND task_id = $2)`,
which always yields one row). -/
def IsCompletedTask (e : Env) (db : DB) (userID taskID : Int) : DB × Except GoError Bool :=
  match txTables e.isCompletedTaskFails db with
  | .error _ =>
    (db.log .IsCompletedTask, .error (.Wrap "IsCompletedTask:  %w" .ErrFailedExecuteQuery))
  | .ok t =>
    (db.log .IsCompletedTask,
      .ok (t.completed_tasks.any (fun r => r.1 == userID && r.2 == taskID)))

/-- The method `UserRepo.AddCompletedTask`
(`INSERT INTO completed_tasks (user_id, task_id) VALUES ($1, $2)`). -/
def AddCompletedTask (e : Env) (db : DB) (userID taskID : Int) : DB × Option GoError :=
  match txTables e.addCompletedTaskFails db with
  | .error _ =>
    (db.log .AddCompletedTask, some (.Wrap "AddCompletedTask:  %w" .ErrFailedExecuteQuery))
  | .ok t =>
    ({ db.log .AddCompletedTask with
        tx := some { t with completed_tasks := t.completed_tasks ++ [(userID, taskID)] } },
      none)

/-! ## The service (`internal/service/service.go`) -/

/-- The method `DefaultUserService.handleTransaction`, run as a deferred call
with a pointer to the caller's `err` variable: roll back when `*err` is set,
commit otherwise and store a commit failure in `*err`.  The result is the store
and the final value of `*err`.  (No modelled statement panics, so the `recover`
branch is not taken.) -/
def handleTransaction (e : Env) (db : DB) (err : Option GoError) : DB × Option GoError :=
  match err with
  | some x => (Rollback db, some x)
  | none =>
    match Commit e db with
    | (db, some commitErr) => (db, some (.Wrap "failed to commit transaction: %w" commitErr))
    | (db, none) => (db, none)

/-- The statements of `Register` after the `defer`, up to the `return`: the
store, the returned `userID` and the value of the named result `err`.  The
error of the locked lookup is not inspected: only `existingUser != nil` is
tested, and `err` is overwritten by the next assignment. -/
def RegisterTx (e : Env) (bc : Bcrypt) (db : DB) (userDTO : UserRegLogDTO) :
    DB × Int × Option GoError :=
  match GetUserByNameWithTx e db userDTO.UserName with
  | (db, .ok _) =>
    (Rollback db, 0,
      some (.Errorf ("user with username " ++ userDTO.UserName ++ " already exists")))
  | (db, .error _) =>
    match bc.GenerateFromPassword userDTO.Password with
    | .error err => (db, 0, some err)
    | .ok hashedPassword =>
      match CreateUserWithTx e db
          { ID := 0, UserName := userDTO.UserName, Password := hashedPassword, Balance := 0,
            UpdateBalance := 0, Referrer := none, CreatedAt := 0 } with
      | (db, .error err) => (db, 0, some (.Wrap "error creating user: %w" err))
      | (db, .ok userID) => (db, userID, none)

/-- The method `DefaultUserService.Register`.  Both results are named, so
the deferred `handleTransaction` writes the error the caller receives. -/
def Register (e : Env) (bc : Bcrypt) (db : DB) (userDTO : UserRegLogDTO) :
    DB × Int × Option GoError :=
  match BeginTransaction e db with
  | (db, .error err) => (db, 0, some (.Wrap "failed to begin transaction: %w" err))
  | (db, .ok _) =>
    match RegisterTx e bc db userDTO with
    | (db, userID, err) =>
      match handleTransaction e db err with
      | (db, err) => (db, userID, err)

/-- The method `DefaultUserService.Login`. -/
def Login (e : Env) (bc : Bcrypt) (db : DB) (userDTO : UserRegLogDTO) :
    DB × Except GoError UserLoginDTO :=
  match GetUserByName e db userDTO.UserName with
  | (db, .error err) => (db, .error (.Wrap "Login: error getting user: %w" err))
  | (db, .ok storedUser) =>
    match bc.CompareHashAndPassword storedUser.Password userDTO.Password with
    | some err => (db, .error (.Wrap "incorrect password: %w" err))
    | none => (db, .ok { ID := storedUser.ID, UserName := storedUser.UserName })

/-- The method `DefaultUserService.UserStatus`. -/
def UserStatus (e : Env) (db : DB) (userID : Int) : DB × Except GoError UserStatusDTO :=
  match GetUserByID e db userID with
  | (db, .error err) => (db, .error (.Wrap "UserStatus: error getting user: %w" err))
  | (db, .ok storedUser) =>
    (db, .ok { ID := storedUser.ID, UserName := storedUser.UserName,
               Balance := storedUser.Balance, UpdatedBalance := storedUser.UpdateBalance,
               Referrer := storedUser.Referrer, CreatedAt := storedUser.CreatedAt })

/-- The method `DefaultUserService.UserLeaderboard`. -/
def UserLeaderboard (e : Env) (db : DB) : DB × Except GoError (List UserLeaderDTO) :=
  match GetUserLeaderboard e db with
  | (db, _, some err) =>
    (db, .error (.Wrap "UserLeaderboard: error getting leaderboard: %w" err))
  | (db, leaderboard, none) => (db, .ok leaderboard)

/-- The statements of `AddReferrer` after the `defer`, up to the `return`: the
store and the value of the named result `err`. -/
def AddReferrerTx (e : Env) (db : DB) (userID referrerID : Int) : DB × Option GoError :=
  match GetUserByIDWithTx e.getUserByIDWithTxFails db userID with
  | (db, .error err) => (db, some (.Wrap "error getting user: %w" err))
  | (db, .ok storedUser) =>
    if storedUser.Referrer ≠ none then
      (Rollback db, some .ErrSetReferrer)
    else
      match GetUserByIDWithTx e.getReferrerByIDWithTxFails db referrerID with
      | (db, .error err) => (db, some (.Wrap "error searching referrer: %w" err))
      | (db, .ok storedReferrer) =>
        if storedReferrer.Referrer ≠ none ∧ storedReferrer.Referrer = some userID then
          (Rollback db, some .ErrInvalidReferrer)
        else
          match SetReferrer e db userID referrerID with
          | (db, some err) => (db, some (.Wrap "error setting referrer: %w" err))
          | (db, none) =>
            match AddPoint e db referrerID 80 with
            | (db, some err) => (db, some (.Wrap "error adding points: %w" err))
            | (db, none) => (db, none)

/-- The method `DefaultUserService.AddReferrer`.  The result is named, so
the deferred `handleTransaction` writes the error the caller receives. -/
def AddReferrer (e : Env) (db : DB) (userID : Int) (ref : ReferrerDTO) : DB × Option GoError :=
  if ref.Referrer = userID then
    (db, some .ErrInvalidReferrer)
  else
    match BeginTransaction e db with
    | (db, .error err) => (db, some (.Wrap "failed to begin transaction: %w" err))
    | (db, .ok _) =>
      match AddReferrerTx e db userID ref.Referrer with
      | (db, err) => handleTransaction e db err

/-- The statements of `TaskComplete` after the `defer`, up to the `return`: the
store, the value of the local variable `err` at the `return` and the value
returned.  The two differ at `return ErrIsCompletedTask`, where `err` is still
`nil`. -/
def TaskCompleteTx (e : Env) (db : DB) (userID : Int) (storedTask : Task) :
    DB × Option GoError × Option GoError :=
  match IsCompletedTask e db userID storedTask.ID with
  | (db, .error err) => (db, some err, some (.Wrap "error checking completed task: %w" err))
  | (db, .ok isCompleted) =>
    if isCompleted then
      (db, none, some .ErrIsCompletedTask)
    else
      match AddPoint e db userID storedTask.Reward with
      | (db, some err) => (db, some err, some (.Wrap "error adding points: %w" err))
      | (db, none) =>
        match AddCompletedTask e db userID storedTask.ID with
        | (db, some err) => (db, some err, some (.Wrap "error adding completed task: %w" err))
        | (db, none) => (db, none, none)

/-- The method `DefaultUserService.TaskComplete`.  Its result is unnamed:
the deferred `handleTransaction` receives a pointer to the local `err`,
decides between commit and rollback on that variable, and what it writes there
does not reach the caller, who receives the value of the `return` statement. -/
def TaskComplete (e : Env) (db : DB) (userID : Int) (task : TaskDTO) : DB × Option GoError :=
  match GetTask e db task.ID with
  | (db, .error err) => (db, some (.Wrap "error getting task: %w" err))
  | (db, .ok storedTask) =>
    match BeginTransaction e db with
    | (db, .error err) => (db, some (.Wrap "failed to begin transaction: %w" err))
    | (db, .ok _) =>
      match TaskCompleteTx e db userID storedTask with
      | (db, err, ret) => ((handleTransaction e db err).1, ret)

/-! ## Observations on the tables -/

/-- The row `SELECT ... FROM users WHERE id = $1` yields. -/
def userByID (t : Tables) (id : Int) : Option User :=
  t.users.find? (fun u => u.ID == id)

/-- The row `SELECT ... FROM users WHERE username = $1` yields. -/
def userByName (t : Tables) (name : String) : Option User :=
  t.users.find? (fun u => u.UserName == name)

/-- The row `SELECT ... FROM tasks WHERE id = $1` yields. -/
def taskByID (t : Tables) (id : Int) : Option Task :=
  t.tasks.find? (fun k => k.ID == id)

/-- Whether a completion record for the pair exists. -/
def isCompleted (t : Tables) (userID taskID : Int) : Bool :=
  t.completed_tasks.any (fun r => r.1 == userID && r.2 == taskID)

/-- The balance of the user with the given id, if the user exists. -/
def balanceOf (t : Tables) (id : Int) : Option Int :=
  (userByID t id).map (fun u => u.Balance)

/-- The referrer field of the user with the given id, if the user exists. -/
def referrerOf (t : Tables) (id : Int) : Option (Option Int) :=
  (userByID t id).map (fun u => u.Referrer)


/-! ## The session token core (`token_service.go`, `token_repository.go`)

Instants (`time.Time`) are counted in nanoseconds since the Unix epoch.  A
token string is modelled by what it encodes: the compact serialisation of
`golang-jwt` is deterministic and HMAC signatures are taken as unforgeable, so
two token strings are equal exactly when algorithm, payload and signing key
agree. -/

/-- The number of nanoseconds in a second. -/
def second : Nat := 1000000000

/-- The duration `24 * time.Hour`. -/
def day : Nat := 24 * 3600 * second

/-- The method `Time.Unix`: whole seconds since the epoch. -/
def Unix (t : Nat) : Int := ((t / second : Nat) : Int)

/-- A claim as it stands in the JSON payload: missing, an integer literal (what
`json.Marshal` writes for a Go `int` or `int64`), or any other JSON value. -/
inductive Claim where
  | absent
  | number (n : Int)
  | other
  deriving DecidableEq, Repr

/-- What a three-part token string encodes: the `alg` header, the two claims
the service uses, and the key under which the signature verifies (`none` when
it verifies under no key). -/
structure JWS where
  alg : String
  user_id : Claim
  exp : Claim
  key : Option String
  deriving DecidableEq, Repr

/-- A token string: a well-formed compact serialisation or anything else. -/
inductive TokenString where
  | jws (j : JWS)
  | malformed (raw : String)
  deriving DecidableEq, Repr

/-- The number of low bits of a magnitude that do not fit the 53-bit
significand of a `float64` (magnitudes below `2 ^ 1024`). -/
def excessBits : Nat → Nat → Nat
  | 0, _ => 0
  | fuel + 1, a => if a < 2 ^ 53 then 0 else excessBits fuel (a / 2) + 1

/-- The `float64` nearest to an integer, ties to the even significand: what
`encoding/json` stores when it decodes an integer literal into an
`interface{}`.  The result is again an integer. -/
def roundToFloat64 (n : Int) : Int :=
  if excessBits 1024 n.natAbs = 0 then n
  else
    n.sign *
      (((if n.natAbs % 2 ^ excessBits 1024 n.natAbs > 2 ^ (excessBits 1024 n.natAbs - 1) ∨
            (n.natAbs % 2 ^ excessBits 1024 n.natAbs = 2 ^ (excessBits 1024 n.natAbs - 1) ∧
              n.natAbs / 2 ^ excessBits 1024 n.natAbs % 2 = 1)
          then n.natAbs / 2 ^ excessBits 1024 n.natAbs + 1
          else n.natAbs / 2 ^ excessBits 1024 n.natAbs) * 2 ^ excessBits 1024 n.natAbs : Nat) : Int)

/-- The conversion `int(f)` of an integer-valued `float64` on a 64-bit
platform; outside the range of `int` the result is implementation-specific
(`amd64` yields the least `int`). -/
def intOfFloat64 (f : Int) : Int :=
  if -(2 ^ 63) ≤ f ∧ f < 2 ^ 63 then f else -(2 ^ 63)

/-- A decoded claim in a `jwt.MapClaims`: a `float64` (integer-valued here) or
a value of another type. -/
inductive ClaimValue where
  | float64 (v : Int)
  | other
  deriving DecidableEq, Repr

/-- The decoding of a claim by `encoding/json`. -/
def Claim.decode : Claim → Option ClaimValue
  | .absent => none
  | .number n => some (.float64 (roundToFloat64 n))
  | .other => some .other

/-- The type `jwt.MapClaims`, a map from claim names to decoded values. -/
abbrev MapClaims := String → Option ClaimValue

/-- The claims a token string decodes to. -/
def JWS.claims (j : JWS) : MapClaims :=
  fun name => if name = "user_id" then j.user_id.decode
    else if name = "exp" then j.exp.decode else none

/-- The fields of `jwt.Token` the service reads. -/
structure ParsedToken where
  Valid : Bool
  Claims : MapClaims

/-- The method `Token.SignedString` for `jwt.SigningMethodHS256` and the claims
`user_id`, `exp`. -/
def SignedString (key : String) (userID exp : Int) : Except GoError TokenString :=
  .ok (.jws { alg := "HS256", user_id := .number userID, exp := .number exp, key := some key })

/-- The function `jwt.Parse` with a key function, at the instant `now`: the
string must be well formed, the key function must accept the algorithm, the
signature must verify under the key it returns, and an `exp` claim must be a
number later than `now`. -/
def jwtParse (keyFunc : String → Except GoError String) (now : Nat) :
    TokenString → Except GoError ParsedToken
  | .malformed _ => .error (.External "token is malformed")
  | .jws j =>
    match keyFunc j.alg with
    | .error err => .error (.Wrap "token is unverifiable: %w" err)
    | .ok key =>
      if j.key ≠ some key then .error (.External "token signature is invalid")
      else
        match j.exp with
        | .other => .error (.External "token has invalid claims")
        | .number n =>
          if (now : Int) < roundToFloat64 n * (second : Int) then
            .ok { Valid := true, Claims := j.claims }
          else .error (.External "token is expired")
        | .absent => .ok { Valid := true, Claims := j.claims }

/-- One row of the `tokens` table. -/
structure TokenRow where
  user_id : Int
  token : TokenString
  expires_at : Nat
  is_revoked : Bool
  deriving DecidableEq, Repr

/-- What the surroundings decide for one call of the token service:
`time.Now()`, the `NOW()` of the store, and for each statement whether its
execution fails. -/
structure TokenEnv where
  now : Nat
  dbNow : Nat
  storeTokenFails : Bool
  isTokenValidFails : Bool
  revokeTokenFails : Bool
  deriving DecidableEq, Repr

/-- The method `TokenRepo.handleError`: `fmt.Errorf("%s: %w", message, err)`. -/
def TokenRepo.handleError (message : String) (err : GoError) : GoError :=
  .Wrap (message ++ ": %w") err

/-- The statement `INSERT INTO tokens(user_id, token, expires_at, is_revoked)
VALUES ($1, $2, $3, FALSE)`: the table afterwards and the number of rows
affected.  The instant is kept as passed. -/
def TokenRepo.execStoreToken (ts : List TokenRow) (userID : Int) (token : TokenString)
    (expiresAt : Nat) : List TokenRow × Nat :=
  (ts ++ [{ user_id := userID, token := token, expires_at := expiresAt, is_revoked := false }], 1)

/-- The method `TokenRepo.StoreToken`. -/
def TokenRepo.StoreToken (e : TokenEnv) (ts : List TokenRow) (userID : Int)
    (token : TokenString) (expiresAt : Nat) : List TokenRow × Option GoError :=
  if e.storeTokenFails then
    (ts, some (TokenRepo.handleError "Failed to execute query to store token"
      (.External "driver")))
  else
    match TokenRepo.execStoreToken ts userID token expiresAt with
    | (ts, rowsAffected) =>
      if rowsAffected = 0 then (ts, some (.Errorf "token not found or already revoked"))
      else (ts, none)

/-- The value of `SELECT EXISTS (SELECT 1 FROM tokens WHERE token = $1 AND
expires_at > NOW() AND is_revoked = FALSE)` when `NOW()` is `dbNow`. -/
def tokenIsValid (dbNow : Nat) (ts : List TokenRow) (token : TokenString) : Bool :=
  ts.any (fun r => r.token == token && decide (r.expires_at > dbNow) && r.is_revoked == false)

/-- The method `TokenRepo.IsTokenValid`. -/
def TokenRepo.IsTokenValid (e : TokenEnv) (ts : List TokenRow) (token : TokenString) :
    Bool × Option GoError :=
  if e.isTokenValidFails then
    (false, some (TokenRepo.handleError "Failed to execute query to validate token"
      (.External "driver")))
  else
    (tokenIsValid e.dbNow ts token, none)

/-- The method `TokenRepo.RevokeToken`
(`UPDATE tokens SET is_revoked = TRUE WHERE token = $1`). -/
def TokenRepo.RevokeToken (e : TokenEnv) (ts : List TokenRow) (token : TokenString) :
    List TokenRow × Option GoError :=
  if e.revokeTokenFails then
    (ts, some (TokenRepo.handleError "Failed to execute query to revoke token"
      (.External "driver")))
  else
    (ts.map (fun r => if r.token == token then { r with is_revoked := true } else r), none)

/-- The key function `ValidateToken` passes to `jwt.Parse`: the secret for an
HMAC signing method, an error for any other. -/
def keyFunc (secretKey : String) (alg : String) : Except GoError String :=
  if alg = "HS256" ∨ alg = "HS384" ∨ alg = "HS512" then .ok secretKey
  else .error (.Errorf ("unexpected signing method: " ++ alg))

/-- The method `DefaultTokenService.GenerateToken`. -/
def GenerateToken (secretKey : String) (e : TokenEnv) (ts : List TokenRow) (userID : Int) :
    List TokenRow × Except GoError (TokenString × Nat) :=
  match SignedString secretKey userID (Unix (e.now + day)) with
  | .error err => (ts, .error err)
  | .ok tokenString =>
    match TokenRepo.StoreToken e ts userID tokenString (e.now + day) with
    | (ts, some err) => (ts, .error err)
    | (ts, none) => (ts, .ok (tokenString, e.now + day))

/-- The method `DefaultTokenService.ValidateToken`: the user id and the error
returned.  (`jwt.Parse` always yields `jwt.MapClaims`, so the type assertion on
the claims succeeds.)  The error of `IsTokenValid` is only logged. -/
def ValidateToken (secretKey : String) (e : TokenEnv) (ts : List TokenRow)
    (tokenString : TokenString) : Int × Option GoError :=
  match jwtParse (keyFunc secretKey) e.now tokenString with
  | .error _ => (0, some (.New "invalid token"))
  | .ok parsedToken =>
    if parsedToken.Valid = false then (0, some (.New "invalid token"))
    else
      match parsedToken.Claims "user_id" with
      | some (.float64 userID) =>
        match TokenRepo.IsTokenValid e ts tokenString with
        | (isValid, _) =>
          if isValid = false then (0, some (.New "token is invalid or revoked"))
          else (intOfFloat64 userID, none)
      | _ => (0, some (.New "invalid user ID in token"))

/-- The method `DefaultTokenService.RevokeToken`. -/
def RevokeToken (e : TokenEnv) (ts : List TokenRow) (token : TokenString) :
    List TokenRow × Option GoError :=
  match TokenRepo.RevokeToken e ts token with
  | (ts, some err) => (ts, some err)
  | (ts, none) => (ts, none)

/-- The surroundings of a token call in which no statement fails and both
clocks show the same instant. -/
def TokenEnv.healthy (now : Nat) : TokenEnv :=
  { now := now, dbNow := now, storeTokenFails := false, isTokenValidFails := false,
    revokeTokenFails := false }

/-- The token string `GenerateToken` signs for a user at the instant `now`. -/
def issuedToken (secretKey : String) (now : Nat) (userID : Int) : TokenString :=
  .jws { alg := "HS256", user_id := .number userID, exp := .number (Unix (now + day)),
         key := some secretKey }

/-- One call of the token service. -/
inductive TokenOp where
  | generate (userID : Int)
  | validate (token : TokenString)
  | revoke (token : TokenString)
  deriving DecidableEq, Repr

/-- The token table after one call of the token service. -/
def TokenOp.run (secretKey : String) (e : TokenEnv) (ts : List TokenRow) :
    TokenOp → List TokenRow
  | .generate userID => (GenerateToken secretKey e ts userID).1
  | .validate _ => ts
  | .revoke token => (RevokeToken e ts token).1

/-- The token table after a sequence of calls, each in its own surroundings. -/
def runTokenOps (secretKey : String) (ts : List TokenRow) :
    List (TokenEnv × TokenOp) → List TokenRow
  | [] => ts
  | (e, op) :: rest => runTokenOps secretKey (op.run secretKey e ts) rest

/-- Every row of a token string is revoked. -/
def allRevoked (ts : List TokenRow) (t : TokenString) : Prop :=
  ∀ r ∈ ts, r.token = t → r.is_revoked = true

instance (ts : List TokenRow) (t : TokenString) : Decidable (allRevoked ts t) := by
  unfold allRevoked
  infer_instance

/-- Whether a call of the token service stores a row with the token string
`t`: a `GenerateToken` that signs `t` and whose insert the store executes. -/
def storesString (secretKey : String) (t : TokenString) (x : TokenEnv × TokenOp) : Bool :=
  match x.2 with
  | .generate userID => !x.1.storeTokenFails && issuedToken secretKey x.1.now userID == t
  | _ => false

/-! ### Concrete token inputs -/

/-- The secret of the sample token service. -/
def sampleKey : String := "secret-key"

/-- An instant, 1 700 000 000.5 seconds after the epoch. -/
def sampleInstant : Nat := 1700000000500000000

/-- A user id one above `2 ^ 53`. -/
def largeID : Int := 2 ^ 53 + 1

/-- Surroundings of a token call in which the validity query fails. -/
def validityQueryFails : TokenEnv :=
  { TokenEnv.healthy sampleInstant with isTokenValidFails := true }

/-! ## Operations as data, and the effect of a referral -/

/-- One call of a mutating operation of the service. -/
inductive Mutation where
  | register (userDTO : UserRegLogDTO)
  | addReferrer (userID : Int) (ref : ReferrerDTO)
  | taskComplete (userID : Int) (task : TaskDTO)
  deriving DecidableEq, Repr

/-- Run a mutating operation: the store afterwards and the error returned to
the caller. -/
def Mutation.run (e : Env) (bc : Bcrypt) (db : DB) : Mutation → DB × Option GoError
  | .register userDTO => ((Register e bc db userDTO).1, (Register e bc db userDTO).2.2)
  | .addReferrer userID ref => AddReferrer e db userID ref
  | .taskComplete userID task => TaskComplete e db userID task

/-- The store after a referral of `A` to `B` went through: `A` has the
referrer, `B` has the bonus. -/
def referred (now : Nat) (t : Tables) (A B : Int) : Tables :=
  { t with
    users := (t.users.map
        (fun u => if u.ID == A then { u with Referrer := some B } else u)).map
        (fun u => if u.ID == B then
          { u with Balance := u.Balance + 80, UpdateBalance := now } else u) }

/-- The tables after `points` were added to the balance of every row with the
given id. -/
def credited (now : Nat) (t : Tables) (userID points : Int) : Tables :=
  { t with
    users := t.users.map (fun u => if u.ID == userID then
      { u with Balance := u.Balance + points, UpdateBalance := now } else u) }

/-- The tables after a task completion went through: the reward is credited and
the completion record appended. -/
def taskCompleted (now : Nat) (t : Tables) (userID : Int) (k : Task) : Tables :=
  { credited now t userID k.Reward with
    completed_tasks := t.completed_tasks ++ [(userID, k.ID)] }

/-- The tables after a registration went through. -/
def registered (t : Tables) (row : User) : Tables :=
  { t with users := t.users ++ [row] }

/-- What one call of the user service can do to the committed tables: nothing,
insert one user row with balance 0 and no referrer, apply a referral of `A` to
a different user `B` when the row found for `A` has no referrer, or complete a
task of the catalog. -/
inductive Effect (t : Tables) : Tables → Prop where
  | unchanged : Effect t t
  | registered (now : Nat) (id : Int) (name hash : String) :
      Effect t (registered t (newUserRow now id name hash))
  | referred (now : Nat) (A B : Int) (a : User) (hAB : A ≠ B)
      (ha : userByID t A = some a) (href : a.Referrer = none) :
      Effect t (referred now t A B)
  | taskCompleted (now : Nat) (u : Int) (k : Task) (hk : k ∈ t.tasks) :
      Effect t (taskCompleted now t u k)

/-- One call of an operation of the user service. -/
inductive Operation where
  | register (userDTO : UserRegLogDTO)
  | login (userDTO : UserRegLogDTO)
  | userStatus (userID : Int)
  | userLeaderboard
  | addReferrer (userID : Int) (ref : ReferrerDTO)
  | taskComplete (userID : Int) (task : TaskDTO)
  deriving DecidableEq, Repr

/-- The store after one call of an operation of the user service. -/
def Operation.run (e : Env) (bc : Bcrypt) (db : DB) : Operation → DB
  | .register userDTO => (Register e bc db userDTO).1
  | .login userDTO => (Login e bc db userDTO).1
  | .userStatus userID => (UserStatus e db userID).1
  | .userLeaderboard => (UserLeaderboard e db).1
  | .addReferrer userID ref => (AddReferrer e db userID ref).1
  | .taskComplete userID task => (TaskComplete e db userID task).1

/-- The store after a sequence of calls, each in its own surroundings. -/
def runOperations (db : DB) : List (Env × Bcrypt × Operation) → DB
  | [] => db
  | (e, bc, op) :: rest => runOperations (op.run e bc db) rest

/-- The store after a sequence of mutating calls, each in its own
surroundings. -/
def runMutations (db : DB) : List (Env × Bcrypt × Mutation) → DB
  | [] => db
  | (e, bc, op) :: rest => runMutations (op.run e bc db).1 rest

/-! ## A concrete store -/

/-- A catalog with one task. -/
def sampleTask : Task :=
  { ID := 1, Description := "subscribe", Reward := 50 }

/-- A registered user without referrer. -/
def sampleAlice : User :=
  { ID := 1, UserName := "alice1", Password := "hash:secret1", Balance := 0,
    UpdateBalance := 3, Referrer := none, CreatedAt := 3 }

/-- A second registered user without referrer. -/
def sampleBob : User :=
  { ID := 2, UserName := "bobby2", Password := "hash:secret2", Balance := 20,
    UpdateBalance := 4, Referrer := none, CreatedAt := 4 }

/-- Two registered users without referrer, one task, no completion record
and no open transaction. -/
def sampleDB : DB :=
  { committed := { users := [sampleAlice, sampleBob], tasks := [sampleTask],
                   completed_tasks := [] },
    tx := none, seq := 2, trace := [] }

/-- A stand-in for `bcrypt` that verifies exactly what it hashed. -/
def sampleBcrypt : Bcrypt :=
  { GenerateFromPassword := fun p => .ok ("hash:" ++ p),
    CompareHashAndPassword := fun h p =>
      if h = "hash:" ++ p then none
      else some (.External "hashedPassword is not the hash of the given password") }

/-- Surroundings in which everything works except `tx.Commit`. -/
def commitFails : Env :=
  { Env.healthy 9 with commitErr := some (.External "conn closed") }

/-- A task whose reward is negative. -/
def debitTask : Task :=
  { ID := 2, Description := "penalty", Reward := -50 }

/-- The sample store with the negative reward added to the catalog. -/
def debitDB : DB :=
  { sampleDB with
    committed := { sampleDB.committed with tasks := [sampleTask, debitTask] } }

/-- The sample store after user 1 named user 2 as referrer. -/
def referredDB : DB :=
  (AddReferrer (Env.healthy 9) sampleDB 1 ⟨2⟩).1

/-- Calls of every operation of the user service, among them two attempts to
give user 1 another referrer. -/
def sampleOperations : List (Env × Bcrypt × Operation) :=
  [ (Env.healthy 10, sampleBcrypt, .addReferrer 1 ⟨3⟩),
    (Env.healthy 11, sampleBcrypt, .register ⟨"carol3", "secret3"⟩),
    (Env.healthy 12, sampleBcrypt, .addReferrer 1 ⟨3⟩),
    (Env.healthy 13, sampleBcrypt, .taskComplete 1 ⟨1⟩),
    (Env.healthy 14, sampleBcrypt, .login ⟨"alice1", "secret1"⟩),
    (Env.healthy 15, sampleBcrypt, .userStatus 1),
    (Env.healthy 16, sampleBcrypt, .userLeaderboard),
    (Env.healthy 17, sampleBcrypt, .addReferrer 3 ⟨1⟩) ]

/-- Mutating calls on the sample store. -/
def sampleMutations : List (Env × Bcrypt × Mutation) :=
  [ (Env.healthy 10, sampleBcrypt, .addReferrer 1 ⟨2⟩),
    (Env.healthy 11, sampleBcrypt, .taskComplete 1 ⟨1⟩),
    (Env.healthy 12, sampleBcrypt, .register ⟨"carol3", "secret3"⟩),
    (Env.healthy 13, sampleBcrypt, .taskComplete 2 ⟨1⟩) ]

/-- Surroundings in which everything works except the lookup by id on the
connection. -/
def statusQueryFails : Env :=
  { Env.healthy 9 with getUserByIDFails := true }

/-- Surroundings in which everything works except the locked lookup by name. -/
def lookupFails : Env :=
  { Env.healthy 9 with getUserByNameWithTxFails := true }

/-! ## The request helpers and handlers (`internal/delivery`) -/

/-- A value of type `interface{}` as the helpers inspect it: `nil`, an `int`,
or a value of another dynamic type. -/
inductive Any where
  | nil
  | int (n : Int)
  | other (typeName : String)
  deriving DecidableEq, Repr

/-- The body of a JSON response: `gin.H` with an `error` message, a
`dto.UserStatusDTO`, or `gin.H` with a `status` text and one numeric field. -/
inductive Body where
  | error (message : String)
  | userStatus (userStatus : UserStatusDTO)
  | status (status : String) (field : String) (value : Int)
  deriving DecidableEq, Repr

/-- A response written with `c.JSON`. -/
structure Response where
  status : Nat
  body : Body
  deriving DecidableEq, Repr

/-- A call of a method of `service.UserService` by a handler. -/
inductive ServiceCall where
  | UserStatus (userID : Int)
  | AddReferrer (userID : Int) (ref : ReferrerDTO)
  | TaskComplete (userID : Int) (task : TaskDTO)
  deriving DecidableEq, Repr

/-- The user id a service call is made for. -/
def ServiceCall.userID : ServiceCall → Int
  | .UserStatus userID => userID
  | .AddReferrer userID _ => userID
  | .TaskComplete userID _ => userID

/-- What the handlers read from and write to a `gin.Context`: the value stored
under the key `user_id` (`none` when the key does not exist), the path
parameter `id`, the outcome of binding the JSON body as a `dto.ReferrerDTO` and
as a `dto.TaskDTO` (`none` when binding fails; the error is only logged), the
responses written and the service calls made so far, oldest first. -/
structure Context where
  user_id : Option Any
  paramID : String
  referrerJSON : Option ReferrerDTO
  taskJSON : Option TaskDTO
  responses : List Response
  calls : List ServiceCall
  deriving DecidableEq, Repr

/-- The method `Context.JSON`. -/
def Context.JSON (c : Context) (status : Nat) (body : Body) : Context :=
  { c with responses := c.responses ++ [{ status := status, body := body }] }

/-- Record a call of the user service. -/
def Context.call (c : Context) (call : ServiceCall) : Context :=
  { c with calls := c.calls ++ [call] }

/-- The three methods of `service.UserService` that the guarded handlers
call, each given by the result it returns. -/
structure UserService where
  UserStatus : Int → Except GoError UserStatusDTO
  AddReferrer : Int → ReferrerDTO → Option GoError
  TaskComplete : Int → TaskDTO → Option GoError

/-- The decimal digits of a string, most significant first, folded into the
number read so far; `none` at the first byte that is not a digit. -/
def parseDigits : List Char → Nat → Option Nat
  | [], n => some n
  | ch :: rest, n =>
    if '0' ≤ ch ∧ ch ≤ '9' then parseDigits rest (n * 10 + (ch.toNat - '0'.toNat)) else none

/-- The function `strconv.Atoi` on a 64-bit platform: an optional sign, at
least one decimal digit and nothing else, with a value in the range of `int`. -/
def Atoi (s : String) : Except GoError Int :=
  match s.toList with
  | [] => .error (.External "strconv.Atoi: invalid syntax")
  | ch :: rest =>
    if (if ch = '-' ∨ ch = '+' then rest else ch :: rest) = [] then
      .error (.External "strconv.Atoi: invalid syntax")
    else
      match parseDigits (if ch = '-' ∨ ch = '+' then rest else ch :: rest) 0 with
      | none => .error (.External "strconv.Atoi: invalid syntax")
      | some n =>
        if ch = '-' then
          if n ≤ 2 ^ 63 then .ok (-(n : Int))
          else .error (.External "strconv.Atoi: value out of range")
        else
          if n < 2 ^ 63 then .ok (n : Int)
          else .error (.External "strconv.Atoi: value out of range")

/-- The function `logAndHandleError`: the error is logged, the response is
`gin.H` with the message. -/
def logAndHandleError (c : Context) (status : Nat) (message : String) : Context :=
  c.JSON status (.error message)

/-- The function `getUserID`. -/
def getUserID (c : Context) : Except GoError Int :=
  match c.user_id with
  | none => .error (.Errorf "User ID missing in context")
  | some .nil => .error (.Errorf "User ID missing in context")
  | some (.int userID) => .ok userID
  | some (.other _) => .error (.Errorf "Invalid user ID type in context")

/-- The method `error.Error` for the errors of `getUserID`. -/
def GoError.Error : GoError → String
  | .Errorf msg => msg
  | .New msg => msg
  | .External msg => msg
  | _ => ""

/-- The function `validateUserID`: the context with the response written, if
any, and the two results. -/
def validateUserID (c : Context) : Context × Int × Bool :=
  match getUserID c with
  | .error err => (logAndHandleError c 401 err.Error, 0, false)
  | .ok userID =>
    match Atoi c.paramID with
    | .error _ => (logAndHandleError c 400 "Invalid user ID type", 0, false)
    | .ok userIDParam =>
      if userID ≠ userIDParam then (logAndHandleError c 401 "User ID mismatch", 0, false)
      else (c, userID, true)

/-- The method `UserHandler.UserStatusHandler`. -/
def UserStatusHandler (h : UserService) (c : Context) : Context :=
  match validateUserID c with
  | (c, _, false) => c
  | (c, userID, true) =>
    match h.UserStatus userID with
    | .error _ =>
      logAndHandleError (c.call (.UserStatus userID)) 500 "Failed get user status"
    | .ok userStatus => (c.call (.UserStatus userID)).JSON 200 (.userStatus userStatus)

/-- The method `UserHandler.ReferrerHandler`. -/
def ReferrerHandler (h : UserService) (c : Context) : Context :=
  match validateUserID c with
  | (c, _, false) => c
  | (c, userID, true) =>
    match c.referrerJSON with
    | none => logAndHandleError c 400 "Error binding referrer"
    | some referrer =>
      match h.AddReferrer userID referrer with
      | some _ =>
        logAndHandleError (c.call (.AddReferrer userID referrer)) 500 "Error adding referrer"
      | none =>
        (c.call (.AddReferrer userID referrer)).JSON 200
          (.status "Реферер добавлен" "referrer_id" referrer.Referrer)

/-- The method `UserHandler.TaskCompleteHandler`. -/
def TaskCompleteHandler (h : UserService) (c : Context) : Context :=
  match validateUserID c with
  | (c, _, false) => c
  | (c, userID, true) =>
    match c.taskJSON with
    | none => logAndHandleError c 400 "Error binding task"
    | some task =>
      match h.TaskComplete userID task with
      | some _ =>
        logAndHandleError (c.call (.TaskComplete userID task)) 500 "Error completing task"
      | none =>
        (c.call (.TaskComplete userID task)).JSON 200
          (.status "Задание выполнено" "task_id" task.ID)

/-- What a guarded handler does with the user service: no call, or one call,
made for the user id that the context holds and the path parameter names. -/
def guardedCalls (c c1 : Context) : Prop :=
  c1.calls = c.calls ∨
  ∃ call, c1.calls = c.calls ++ [call] ∧ c.user_id = some (.int call.userID) ∧
    Atoi c.paramID = .ok call.userID

/-! ## The user name validator (`internal/pkg/validation`) -/

/-- The syntax of the regular expressions the validator needs: `^`, `$`, a
character class given by its ranges, concatenation and bounded repetition. -/
inductive Regex where
  | beginText
  | endText
  | charClass (ranges : List (Char × Char))
  | concat (a b : Regex)
  | rep (r : Regex) (min max : Nat)
  deriving Repr

/-- A position of the matcher in the text: whether it is the beginning of the
text, and the characters ahead. -/
structure MatchState where
  atStart : Bool
  rest : List Char
  deriving DecidableEq, Repr

/-- Whether a character lies in one of the ranges of a class. -/
def inClass (ranges : List (Char × Char)) (ch : Char) : Bool :=
  ranges.any (fun r => decide (r.1 ≤ ch) && decide (ch ≤ r.2))

/-- Match `step` exactly `n` times, then continue. -/
def matchTimes (step : (MatchState → Bool) → MatchState → Bool) :
    Nat → (MatchState → Bool) → MatchState → Bool
  | 0, k, st => k st
  | n + 1, k, st => step (matchTimes step n k) st

/-- Match `step` at most `n` times, then continue. -/
def matchUpTo (step : (MatchState → Bool) → MatchState → Bool) :
    Nat → (MatchState → Bool) → MatchState → Bool
  | 0, k, st => k st
  | n + 1, k, st => step (matchUpTo step n k) st || k st

/-- Whether the expression matches at the position so that the continuation
accepts the position reached.  Without flags `^` holds only at the beginning
of the text and `$` only at its end. -/
def Regex.run : Regex → (MatchState → Bool) → MatchState → Bool
  | .beginText, k, st => st.atStart && k st
  | .endText, k, st => st.rest.isEmpty && k st
  | .charClass ranges, k, st =>
    match st.rest with
    | [] => false
    | ch :: rest => inClass ranges ch && k { atStart := false, rest := rest }
  | .concat a b, k, st => a.run (b.run k) st
  | .rep r min max, k, st =>
    matchTimes (fun k st => r.run k st) min
      (matchUpTo (fun k st => r.run k st) (max - min) k) st

/-- Whether the expression matches at some position of the text, the first
position being the beginning of the text only when `atStart` says so. -/
def searchFrom (r : Regex) : Bool → List Char → Bool
  | atStart, [] => r.run (fun _ => true) { atStart := atStart, rest := [] }
  | atStart, ch :: rest =>
    r.run (fun _ => true) { atStart := atStart, rest := ch :: rest } || searchFrom r false rest

/-- The function `regexp.MatchString` for a pattern that compiles to the given
expression: the text contains a match. -/
def MatchString (r : Regex) (s : String) : Bool :=
  searchFrom r true s.toList

/-- The syntax tree of the pattern of `validateUsername`: `^`, the class
`[a-zA-Z]`, the class `[a-zA-Z0-9]` repeated 5 to 14 times, `$`. -/
def usernameRegex : Regex :=
  .concat .beginText
    (.concat (.charClass [('a', 'z'), ('A', 'Z')])
      (.concat (.rep (.charClass [('a', 'z'), ('A', 'Z'), ('0', '9')]) 5 14) .endText))

/-- The function `validateUsername` on the string value of the field. -/
def validateUsername (field : String) : Bool :=
  MatchString usernameRegex field

/-- An ASCII letter. -/
def isASCIILetter (ch : Char) : Bool :=
  (decide ('a' ≤ ch) && decide (ch ≤ 'z')) || (decide ('A' ≤ ch) && decide (ch ≤ 'Z'))

/-- An ASCII digit. -/
def isASCIIDigit (ch : Char) : Bool :=
  decide ('0' ≤ ch) && decide (ch ≤ '9')

/-- The acceptance condition in words: between 6 and 15 characters, the first
an ASCII letter, every other one an ASCII letter or digit. -/
def usernameSpec (s : String) : Bool :=
  decide (6 ≤ s.length) && decide (s.length ≤ 15) &&
    match s.toList with
    | [] => false
    | ch :: rest => isASCIILetter ch && rest.all (fun x => isASCIILetter x || isASCIIDigit x)

/-- A context of an authenticated request of user 7 on the path of user 7. -/
def sampleContext : Context :=
  { user_id := some (.int 7), paramID := "7", referrerJSON := some ⟨2⟩,
    taskJSON := some ⟨1⟩, responses := [], calls := [] }

/-- A user service whose calls all succeed. -/
def sampleService : UserService :=
  { UserStatus := fun userID =>
      .ok { ID := userID, UserName := "alice1", Balance := 0, UpdatedBalance := 3,
            Referrer := none, CreatedAt := 3 },
    AddReferrer := fun _ _ => none,
    TaskComplete := fun _ _ => none }

/-! ## Valid credentials and the length rule of `bcrypt` -/

/-- The binding rules of `dto.UserRegLogDTO`: the user name passes
`validateUsername`, the password has between 6 and 20 characters (`min=6`,
`max=20` count characters, not bytes). -/
def validCredentials (d : UserRegLogDTO) : Bool :=
  validateUsername d.UserName && decide (6 ≤ d.Password.length) &&
    decide (d.Password.length ≤ 20)

/-- A stand-in for `bcrypt` with its length rule: `GenerateFromPassword`
refuses a password of more than 72 bytes with `ErrPasswordTooLong`; otherwise
it hashes, and the comparison verifies exactly what was hashed. -/
def lengthCheckingBcrypt : Bcrypt :=
  { GenerateFromPassword := fun p =>
      if p.utf8ByteSize > 72 then .error (.External "bcrypt: password length exceeds 72 bytes")
      else .ok ("hash:" ++ p),
    CompareHashAndPassword := fun h p =>
      if h = "hash:" ++ p then none
      else some (.External "hashedPassword is not the hash of the given password") }

/-- A password of 20 characters, each of them four bytes long in UTF-8. -/
def longPassword : String :=
  String.mk (List.replicate 20 (Char.ofNat 128512))

/-! ## Lemmas: statements inside a transaction leave the committed tables alone -/

/-- A rollback leaves the committed tables alone. -/
theorem Rollback_committed (db : DB) : (Rollback db).committed = db.committed := rfl

/-- Beginning a transaction leaves the committed tables alone. -/
theorem BeginTransaction_committed (e : Env) (db : DB) :
    (BeginTransaction e db).1.committed = db.committed := by
  unfold BeginTransaction; split <;> rfl

/-- A transaction that was begun starts from the committed tables. -/
theorem BeginTransaction_ok {e : Env} {db db1 : DB} {x : Unit}
    (h : BeginTransaction e db = (db1, .ok x)) : db1.tx = some db.committed := by
  unfold BeginTransaction at h
  split at h
  · simp at h
  · simp only [Prod.mk.injEq] at h
    rw [← h.1]

/-- The locked lookup by name only adds its call to the trace. -/
theorem GetUserByNameWithTx_fst (e : Env) (db : DB) (name : String) :
    (GetUserByNameWithTx e db name).1 = db.log .GetUserByNameWithTx := by
  unfold GetUserByNameWithTx
  split
  · rfl
  · split <;> rfl

/-- The locked lookup by id only adds its call to the trace. -/
theorem GetUserByIDWithTx_fst (fails : Bool) (db : DB) (id : Int) :
    (GetUserByIDWithTx fails db id).1 = db.log .GetUserByIDWithTx := by
  unfold GetUserByIDWithTx
  split
  · rfl
  · split <;> rfl

/-- The completion check only adds its call to the trace. -/
theorem IsCompletedTask_fst (e : Env) (db : DB) (u k : Int) :
    (IsCompletedTask e db u k).1 = db.log .IsCompletedTask := by
  unfold IsCompletedTask
  split <;> rfl

/-- The task lookup only adds its call to the trace. -/
theorem GetTask_fst (e : Env) (db : DB) (k : Int) :
    (GetTask e db k).1 = db.log .GetTask := by
  unfold GetTask
  split
  · rfl
  · split <;> rfl

/-- The lookup by name only adds its call to the trace. -/
theorem GetUserByName_fst (e : Env) (db : DB) (name : String) :
    (GetUserByName e db name).1 = db.log .GetUserByName := by
  unfold GetUserByName
  split
  · rfl
  · split <;> rfl

/-- The insert of a user writes to the working copy only. -/
theorem CreateUserWithTx_committed (e : Env) (db : DB) (user : User) :
    (CreateUserWithTx e db user).1.committed = db.committed := by
  unfold CreateUserWithTx; split <;> rfl

/-- The referrer update writes to the working copy only. -/
theorem SetReferrer_committed (e : Env) (db : DB) (u r : Int) :
    (SetReferrer e db u r).1.committed = db.committed := by
  unfold SetReferrer; split <;> rfl

/-- The balance update writes to the working copy only. -/
theorem AddPoint_committed (e : Env) (db : DB) (u p : Int) :
    (AddPoint e db u p).1.committed = db.committed := by
  unfold AddPoint; split <;> rfl

/-- The insert of a completion record writes to the working copy only. -/
theorem AddCompletedTask_committed (e : Env) (db : DB) (u k : Int) :
    (AddCompletedTask e db u k).1.committed = db.committed := by
  unfold AddCompletedTask; split <;> rfl

/-- When the deferred handler leaves an error in `*err`, nothing was
committed. -/
theorem handleTransaction_error (e : Env) (db : DB) (err : Option GoError)
    (h : (handleTransaction e db err).2 ≠ none) :
    (handleTransaction e db err).1.committed = db.committed := by
  revert h
  unfold handleTransaction Commit
  cases err with
  | some x => intro _; rfl
  | none =>
    cases db.tx with
    | none => intro _; rfl
    | some t =>
      cases e.commitErr with
      | some ce => intro _; rfl
      | none => intro h; exact absurd rfl h

/-- When the deferred handler is entered with `*err` set, nothing is
committed. -/
theorem handleTransaction_of_err (e : Env) (db : DB) (x : GoError) :
    (handleTransaction e db (some x)).1.committed = db.committed := rfl

/-- Committing a transaction whose working copy is the committed tables
changes no table, whether or not the commit succeeds. -/
theorem handleTransaction_untouched (e : Env) (db : DB) (err : Option GoError)
    (h : db.tx = some db.committed) :
    (handleTransaction e db err).1.committed = db.committed := by
  unfold handleTransaction Commit
  cases err with
  | some x => rfl
  | none =>
    rw [h]
    cases e.commitErr with
    | some ce => rfl
    | none => rfl

/-- The transaction body of `Register` leaves the committed tables alone. -/
theorem RegisterTx_committed (e : Env) (bc : Bcrypt) (db : DB) (d : UserRegLogDTO) :
    (RegisterTx e bc db d).1.committed = db.committed := by
  unfold RegisterTx
  have h1 := GetUserByNameWithTx_fst e db d.UserName
  rcases hg : GetUserByNameWithTx e db d.UserName with ⟨db1, err | u⟩
  · rw [hg] at h1
    simp only at h1 ⊢
    subst h1
    cases bc.GenerateFromPassword d.Password with
    | error err => rfl
    | ok hp =>
      simp only
      have h2 := CreateUserWithTx_committed e (db.log .GetUserByNameWithTx)
        { ID := 0, UserName := d.UserName, Password := hp, Balance := 0,
          UpdateBalance := 0, Referrer := none, CreatedAt := 0 }
      rcases hc : CreateUserWithTx e (db.log .GetUserByNameWithTx)
        { ID := 0, UserName := d.UserName, Password := hp, Balance := 0,
          UpdateBalance := 0, Referrer := none, CreatedAt := 0 } with ⟨db2, err | id⟩
      · rw [hc] at h2; exact h2
      · rw [hc] at h2; exact h2
  · rw [hg] at h1
    simp only at h1 ⊢
    subst h1
    rfl

/-- The transaction body of `AddReferrer` leaves the committed tables alone. -/
theorem AddReferrerTx_committed (e : Env) (db : DB) (u r : Int) :
    (AddReferrerTx e db u r).1.committed = db.committed := by
  unfold AddReferrerTx
  have h1 := GetUserByIDWithTx_fst e.getUserByIDWithTxFails db u
  rcases hg : GetUserByIDWithTx e.getUserByIDWithTxFails db u with ⟨db1, err | su⟩
  · rw [hg] at h1; simp only at h1 ⊢; subst h1; rfl
  · rw [hg] at h1; simp only at h1 ⊢; subst h1
    split
    · rfl
    · have h2 := GetUserByIDWithTx_fst e.getReferrerByIDWithTxFails (db.log .GetUserByIDWithTx) r
      rcases hg2 : GetUserByIDWithTx e.getReferrerByIDWithTxFails (db.log .GetUserByIDWithTx) r
        with ⟨db2, err | sr⟩
      · rw [hg2] at h2; simp only at h2 ⊢; subst h2; rfl
      · rw [hg2] at h2; simp only at h2 ⊢; subst h2
        split
        · rfl
        · have h3 := SetReferrer_committed e
            ((db.log .GetUserByIDWithTx).log .GetUserByIDWithTx) u r
          rcases hs : SetReferrer e ((db.log .GetUserByIDWithTx).log .GetUserByIDWithTx) u r
            with ⟨db3, _ | err⟩
          · rw [hs] at h3; simp only at h3 ⊢
            have h4 := AddPoint_committed e db3 r 80
            rcases hp : AddPoint e db3 r 80 with ⟨db4, _ | err⟩
            · rw [hp] at h4; simp only at h4 ⊢; rw [h4, h3]; rfl
            · rw [hp] at h4; simp only at h4 ⊢; rw [h4, h3]; rfl
          · rw [hs] at h3; simp only at h3 ⊢; rw [h3]; rfl

/-- The transaction body of `TaskComplete` leaves the committed tables alone;
when it returns an error while the local `err` is `nil`, it has not written to
the working copy either. -/
theorem TaskCompleteTx_spec (e : Env) (db : DB) (u : Int) (k : Task) :
    (TaskCompleteTx e db u k).1.committed = db.committed ∧
    ((TaskCompleteTx e db u k).2.1 = none → (TaskCompleteTx e db u k).2.2 ≠ none →
      (TaskCompleteTx e db u k).1.tx = db.tx) := by
  unfold TaskCompleteTx
  have h1 := IsCompletedTask_fst e db u k.ID
  rcases hg : IsCompletedTask e db u k.ID with ⟨db1, err | b⟩
  · rw [hg] at h1; simp only at h1 ⊢; subst h1
    exact ⟨rfl, fun h => by simp at h⟩
  · rw [hg] at h1; simp only at h1 ⊢; subst h1
    cases b with
    | true => exact ⟨rfl, fun _ _ => rfl⟩
    | false =>
      simp only [Bool.false_eq_true, if_false]
      have h3 := AddPoint_committed e (db.log .IsCompletedTask) u k.Reward
      rcases hs : AddPoint e (db.log .IsCompletedTask) u k.Reward with ⟨db3, _ | err⟩
      · rw [hs] at h3; simp only at h3 ⊢
        have h4 := AddCompletedTask_committed e db3 u k.ID
        rcases hp : AddCompletedTask e db3 u k.ID with ⟨db4, _ | err⟩
        · rw [hp] at h4; simp only at h4 ⊢
          exact ⟨by rw [h4, h3]; rfl, fun _ h => absurd rfl h⟩
        · rw [hp] at h4; simp only at h4 ⊢
          exact ⟨by rw [h4, h3]; rfl, fun h => by simp at h⟩
      · rw [hs] at h3; simp only at h3 ⊢
        exact ⟨by rw [h3]; rfl, fun h => by simp at h⟩

/-- The deferred handler leaves `*err` at `nil` only when the commit
succeeded. -/
theorem handleTransaction_nil {e : Env} {db : DB} {err : Option GoError}
    (h : (handleTransaction e db err).2 = none) : e.commitErr = none := by
  revert h
  unfold handleTransaction Commit
  cases err with
  | some x => intro h; simp at h
  | none =>
    cases db.tx with
    | none => intro h; simp at h
    | some t =>
      cases e.commitErr with
      | some ce => intro h; simp at h
      | none => intro _; rfl

/-! ## Lemmas on the table updates -/

/-- Looking a user up by id after an update that keeps every id: the row found
is the updated image of the row found before. -/
theorem find?_ID_map (l : List User) (g : User → User) (hg : ∀ u, (g u).ID = u.ID) (v : Int) :
    (l.map g).find? (fun u => u.ID == v) = (l.find? (fun u => u.ID == v)).map g := by
  induction l with
  | nil => rfl
  | cons a l ih =>
    simp only [List.map_cons, List.find?_cons, hg]
    cases h : a.ID == v with
    | true => rfl
    | false => simpa using ih

/-- The task found by id carries that id. -/
theorem taskByID_ID {t : Tables} {id : Int} {k : Task} (h : taskByID t id = some k) :
    k.ID = id := by
  have := List.find?_some h
  simpa using this

/-- The user found by id carries that id. -/
theorem userByID_ID {t : Tables} {id : Int} {u : User} (h : userByID t id = some u) :
    u.ID = id := by
  have := List.find?_some h
  simpa using this

/-- The outcome of a referral of `A` to `B` when no driver call fails, both users
exist, `A` has no referrer and `B` is not referred by `A`. -/
theorem addReferrer_healthy (now : Nat) (db : DB) (A B : Int) (a b : User)
    (hAB : A ≠ B)
    (ha : userByID db.committed A = some a) (hb : userByID db.committed B = some b)
    (haref : a.Referrer = none) (hbref : b.Referrer ≠ some A) :
    AddReferrer (Env.healthy now) db A ⟨B⟩ =
      ({ committed := referred now db.committed A B, tx := none, seq := db.seq,
         trace := db.trace ++ [Call.Begin, Call.GetUserByIDWithTx, Call.GetUserByIDWithTx,
           Call.SetReferrer, Call.AddPoint, Call.Commit] }, none) := by
  unfold userByID at ha hb
  have hBA : ¬ B = A := fun h => hAB h.symm
  simp [AddReferrer, BeginTransaction, AddReferrerTx, GetUserByIDWithTx, txTables, SetReferrer,
    AddPoint, handleTransaction, Commit, DB.log, Env.healthy, referred, ha, hb, haref, hbref,
    hBA]

/-- The row of a user after a referral of `A` to `B`. -/
theorem userByID_referred (now : Nat) (t : Tables) (A B v : Int) (hAB : A ≠ B) :
    userByID (referred now t A B) v =
      (userByID t v).map (fun u =>
        if v = A then { u with Referrer := some B }
        else if v = B then { u with Balance := u.Balance + 80, UpdateBalance := now }
        else u) := by
  simp only [userByID, referred]
  rw [find?_ID_map _ _ (by intro x; split <;> rfl), find?_ID_map _ _ (by intro x; split <;> rfl)]
  cases hx : List.find? (fun x => x.ID == v) t.users with
  | none => rfl
  | some x =>
    have hv := List.find?_some hx
    simp at hv
    subst hv
    by_cases h1 : x.ID = A
    · have : ¬ x.ID = B := fun h => hAB (h1.symm.trans h)
      simp [h1, this, hAB]
    · by_cases h2 : x.ID = B
      · have hBA : ¬ B = A := fun h => hAB h.symm
        simp [h2, hBA]
      · simp [h1, h2]

/-- When hashing fails or the insert fails, the transaction body of
`Register` ends with an error and user id 0. -/
theorem RegisterTx_aborts (e : Env) (bc : Bcrypt) (db : DB) (d : UserRegLogDTO)
    (hfail : (∃ err, bc.GenerateFromPassword d.Password = .error err) ∨
      e.createUserFails = true) :
    (RegisterTx e bc db d).2.1 = 0 ∧ (RegisterTx e bc db d).2.2 ≠ none := by
  unfold RegisterTx
  rcases GetUserByNameWithTx e db d.UserName with ⟨db1, err | u⟩
  · simp only
    cases hh : bc.GenerateFromPassword d.Password with
    | error err => simp
    | ok hp =>
      rcases hfail with ⟨err, herr⟩ | hcreate
      · rw [hh] at herr; cases herr
      · simp only [CreateUserWithTx, txTables, hcreate]
        cases db1.tx <;> simp
  · simp

/-- The sound part of the failure handling of `Register`: when hashing fails or
the insert fails, `Register` returns an error and id 0, and the committed
tables are those before the call. -/
theorem Register_aborts (e : Env) (bc : Bcrypt) (db : DB) (d : UserRegLogDTO)
    (hfail : (∃ err, bc.GenerateFromPassword d.Password = .error err) ∨
      e.createUserFails = true) :
    (Register e bc db d).2.1 = 0 ∧ (Register e bc db d).2.2 ≠ none ∧
    (Register e bc db d).1.committed = db.committed := by
  unfold Register
  have hb := BeginTransaction_committed e db
  rcases hbeg : BeginTransaction e db with ⟨db1, err | x⟩
  · rw [hbeg] at hb
    exact ⟨rfl, by simp, hb⟩
  · rw [hbeg] at hb
    simp only at hb ⊢
    have hr := RegisterTx_committed e bc db1 d
    have ha := RegisterTx_aborts e bc db1 d hfail
    rcases hreg : RegisterTx e bc db1 d with ⟨db2, id, err⟩
    rw [hreg] at hr ha
    simp only at hr ha ⊢
    cases err with
    | none => exact absurd rfl ha.2
    | some x => exact ⟨ha.1, by simp [handleTransaction], by rw [handleTransaction_of_err, hr, hb]⟩

/-- With named results the failed commit reaches the caller: `Register` and
`AddReferrer` return `nil` only when `tx.Commit` succeeded. -/
theorem named_results_surface_commit_failure (e : Env) (bc : Bcrypt) (db : DB) :
    (∀ d, (Register e bc db d).2.2 = none → e.commitErr = none) ∧
    (∀ u r, (AddReferrer e db u r).2 = none → e.commitErr = none) := by
  constructor
  · intro d
    unfold Register
    rcases BeginTransaction e db with ⟨db1, err | x⟩
    · intro h; simp at h
    · simp only
      rcases RegisterTx e bc db1 d with ⟨db2, id, err⟩
      exact fun h => handleTransaction_nil h
  · intro u r
    unfold AddReferrer
    split
    · intro h; simp at h
    · rcases BeginTransaction e db with ⟨db1, err | x⟩
      · intro h; simp at h
      · simp only
        rcases AddReferrerTx e db1 u r.Referrer with ⟨db2, err⟩
        exact fun h => handleTransaction_nil h

/-- On every store: when the task exists, the pair is not yet recorded, every
repository call succeeds and the commit fails, `TaskComplete` returns `nil` and
nothing is committed. -/
theorem TaskComplete_commit_failure (e : Env) (db : DB) (u : Int) (task : TaskDTO) (k : Task)
    (ce : GoError)
    (hk : taskByID db.committed task.ID = some k)
    (hnot : isCompleted db.committed u task.ID = false)
    (h1 : e.getTaskFails = false) (h2 : e.beginFails = false)
    (h3 : e.isCompletedTaskFails = false) (h4 : e.addPointFails = false)
    (h5 : e.addCompletedTaskFails = false) (hc : e.commitErr = some ce) :
    (TaskComplete e db u task).2 = none ∧
    (TaskComplete e db u task).1.committed = db.committed := by
  have hid := taskByID_ID hk
  unfold taskByID at hk
  unfold isCompleted at hnot
  simp [TaskComplete, GetTask, connTables, BeginTransaction, TaskCompleteTx, IsCompletedTask,
    txTables, AddPoint, AddCompletedTask, handleTransaction, Commit, DB.log,
    hk, hid, hnot, h1, h2, h3, h4, h5, hc]

/-! ## The claims -/

/-- C1: completing a task twice.  On a store where the task exists and the
pair (user, task) has no completion record, and with no driver failure, the
first `TaskComplete` returns `nil`, appends the record (user, task), adds the
reward of the task to the balance of that user and changes no other user row;
the second `TaskComplete` returns `ErrIsCompletedTask` and leaves the committed
tables as the first call left them, so the reward is credited once. -/
theorem taskComplete_twice (n1 n2 : Nat) (db : DB) (u : Int) (task : TaskDTO) (k : Task)
    (hk : taskByID db.committed task.ID = some k)
    (hnot : isCompleted db.committed u task.ID = false) :
    (TaskComplete (Env.healthy n1) db u task).2 = none ∧
    (TaskComplete (Env.healthy n1) db u task).1.committed.completed_tasks
      = db.committed.completed_tasks ++ [(u, task.ID)] ∧
    isCompleted (TaskComplete (Env.healthy n1) db u task).1.committed u task.ID = true ∧
    balanceOf (TaskComplete (Env.healthy n1) db u task).1.committed u
      = (balanceOf db.committed u).map (fun b => b + k.Reward) ∧
    (∀ v, v ≠ u →
      userByID (TaskComplete (Env.healthy n1) db u task).1.committed v = userByID db.committed v) ∧
    (TaskComplete (Env.healthy n2) (TaskComplete (Env.healthy n1) db u task).1 u task).2
      = some GoError.ErrIsCompletedTask ∧
    (TaskComplete (Env.healthy n2) (TaskComplete (Env.healthy n1) db u task).1 u task).1.committed
      = (TaskComplete (Env.healthy n1) db u task).1.committed := by
  have hid := taskByID_ID hk
  unfold taskByID at hk
  unfold isCompleted at hnot
  have h1 : TaskComplete (Env.healthy n1) db u task =
      ({ committed := { db.committed with
            users := db.committed.users.map (fun x => if x.ID == u then
              { x with Balance := x.Balance + k.Reward, UpdateBalance := n1 } else x)
            completed_tasks := db.committed.completed_tasks ++ [(u, task.ID)] },
         tx := none, seq := db.seq,
         trace := db.trace ++ [Call.GetTask, Call.Begin, Call.IsCompletedTask, Call.AddPoint,
           Call.AddCompletedTask, Call.Commit] }, none) := by
    simp [TaskComplete, GetTask, connTables, BeginTransaction, TaskCompleteTx, IsCompletedTask,
      txTables, AddPoint, AddCompletedTask, handleTransaction, Commit, DB.log, Env.healthy,
      hk, hid, hnot]
  rw [h1]
  refine ⟨rfl, rfl, ?_, ?_, ?_, ?_, ?_⟩
  · simp [isCompleted]
  · simp only [balanceOf, userByID]
    rw [find?_ID_map _ _ (by intro x; split <;> rfl)]
    cases hx : List.find? (fun x => x.ID == u) db.committed.users with
    | none => rfl
    | some x =>
      have := List.find?_some hx
      simp at this
      simp [this]
  · intro v hv
    simp only [userByID]
    rw [find?_ID_map _ _ (by intro x; split <;> rfl)]
    cases hx : List.find? (fun x => x.ID == v) db.committed.users with
    | none => rfl
    | some x =>
      have := List.find?_some hx
      simp at this
      simp [this, hv]
  · simp [TaskComplete, GetTask, connTables, BeginTransaction, TaskCompleteTx, IsCompletedTask,
      txTables, handleTransaction, Commit, DB.log, Env.healthy, hk, hid]
  · simp [TaskComplete, GetTask, connTables, BeginTransaction, TaskCompleteTx, IsCompletedTask,
      txTables, handleTransaction, Commit, DB.log, Env.healthy, hk, hid]

/-- C1 at the sample store: user 1 completes task 1 (reward 50) twice. -/
theorem taskComplete_twice_witness :
    taskByID sampleDB.committed 1 = some sampleTask ∧
    isCompleted sampleDB.committed 1 1 = false ∧
    (TaskComplete (Env.healthy 10) sampleDB 1 ⟨1⟩).2 = none ∧
    balanceOf (TaskComplete (Env.healthy 10) sampleDB 1 ⟨1⟩).1.committed 1 = some 50 ∧
    (TaskComplete (Env.healthy 11) (TaskComplete (Env.healthy 10) sampleDB 1 ⟨1⟩).1 1 ⟨1⟩).2
      = some GoError.ErrIsCompletedTask :=
  ⟨by decide, by decide,
    (taskComplete_twice 10 11 sampleDB 1 ⟨1⟩ sampleTask (by decide) (by decide)).1,
    (taskComplete_twice 10 11 sampleDB 1 ⟨1⟩ sampleTask (by decide) (by decide)).2.2.2.1,
    (taskComplete_twice 10 11 sampleDB 1 ⟨1⟩ sampleTask (by decide) (by decide)).2.2.2.2.2.1⟩

/-- C2: referring twice.  For distinct existing users `A` and `B`, where `A`
has no referrer and the referrer of `B` is not `A`, and with no driver failure,
the first `AddReferrer(A, B)` returns `nil`, sets the referrer of `A` to `B`,
adds 80 to the balance of `B`, and changes no other balance and no other
referrer; the second `AddReferrer(A, B)` returns `ErrSetReferrer` and leaves
the committed tables unchanged, so `B` is credited once. -/
theorem addReferrer_twice (n1 n2 : Nat) (db : DB) (A B : Int) (a b : User)
    (hAB : A ≠ B)
    (ha : userByID db.committed A = some a) (hb : userByID db.committed B = some b)
    (haref : a.Referrer = none) (hbref : b.Referrer ≠ some A) :
    (AddReferrer (Env.healthy n1) db A ⟨B⟩).2 = none ∧
    referrerOf (AddReferrer (Env.healthy n1) db A ⟨B⟩).1.committed A = some (some B) ∧
    balanceOf (AddReferrer (Env.healthy n1) db A ⟨B⟩).1.committed B = some (b.Balance + 80) ∧
    (∀ v, v ≠ B →
      balanceOf (AddReferrer (Env.healthy n1) db A ⟨B⟩).1.committed v
        = balanceOf db.committed v) ∧
    (∀ v, v ≠ A →
      referrerOf (AddReferrer (Env.healthy n1) db A ⟨B⟩).1.committed v
        = referrerOf db.committed v) ∧
    (AddReferrer (Env.healthy n2) (AddReferrer (Env.healthy n1) db A ⟨B⟩).1 A ⟨B⟩).2
      = some GoError.ErrSetReferrer ∧
    (AddReferrer (Env.healthy n2) (AddReferrer (Env.healthy n1) db A ⟨B⟩).1 A ⟨B⟩).1.committed
      = (AddReferrer (Env.healthy n1) db A ⟨B⟩).1.committed := by
  have hBA : ¬ B = A := fun h => hAB h.symm
  rw [addReferrer_healthy n1 db A B a b hAB ha hb haref hbref]
  have hA' := userByID_referred n1 db.committed A B A hAB
  have hB' := userByID_referred n1 db.committed A B B hAB
  rw [ha] at hA'
  rw [hb] at hB'
  simp [hBA] at hA' hB'
  refine ⟨rfl, ?_, ?_, ?_, ?_, ?_, ?_⟩
  · simp [referrerOf, hA']
  · simp [balanceOf, hB']
  · intro v hv
    simp only [balanceOf, userByID_referred n1 db.committed A B v hAB]
    cases userByID db.committed v with
    | none => rfl
    | some x => by_cases h1 : v = A <;> simp [h1, hv]
  · intro v hv
    simp only [referrerOf, userByID_referred n1 db.committed A B v hAB]
    cases userByID db.committed v with
    | none => rfl
    | some x => by_cases h1 : v = B <;> simp [h1, hv, hBA]
  · unfold userByID at hA'
    simp [AddReferrer, BeginTransaction, AddReferrerTx, GetUserByIDWithTx, txTables,
      handleTransaction, Rollback, DB.log, Env.healthy, hA', hBA]
  · unfold userByID at hA'
    simp [AddReferrer, BeginTransaction, AddReferrerTx, GetUserByIDWithTx, txTables,
      handleTransaction, Rollback, DB.log, Env.healthy, hA', hBA]

/-- C2 at the sample store: user 1 names user 2 (balance 20) twice. -/
theorem addReferrer_twice_witness :
    (AddReferrer (Env.healthy 10) sampleDB 1 ⟨2⟩).2 = none ∧
    balanceOf (AddReferrer (Env.healthy 10) sampleDB 1 ⟨2⟩).1.committed 2 = some (20 + 80) ∧
    (AddReferrer (Env.healthy 11) (AddReferrer (Env.healthy 10) sampleDB 1 ⟨2⟩).1 1 ⟨2⟩).2
      = some GoError.ErrSetReferrer :=
  ⟨(addReferrer_twice 10 11 sampleDB 1 2 sampleAlice sampleBob (by decide) (by decide)
      (by decide) (by decide) (by decide)).1,
    (addReferrer_twice 10 11 sampleDB 1 2 sampleAlice sampleBob (by decide) (by decide)
      (by decide) (by decide) (by decide)).2.2.1,
    (addReferrer_twice 10 11 sampleDB 1 2 sampleAlice sampleBob (by decide) (by decide)
      (by decide) (by decide) (by decide)).2.2.2.2.2.1⟩

/-- C3: self-referral.  For every user id, every store and every behaviour of
the driver, `AddReferrer(u, u)` returns `ErrInvalidReferrer` and the store is
the one before the call, trace included: no transaction was begun and no
statement was issued. -/
theorem addReferrer_self (e : Env) (db : DB) (u : Int) :
    AddReferrer e db u ⟨u⟩ = (db, some GoError.ErrInvalidReferrer) := by
  simp [AddReferrer]

/-- C4: direct cycle.  For distinct existing users `A` and `B` without
referrers, and with no driver failure, `AddReferrer(A, B)` returns `nil`; the
following `AddReferrer(B, A)` returns `ErrInvalidReferrer` and leaves the
committed tables (hence every balance) unchanged; afterwards the referrer of
`A` is `B` and `B` has no referrer. -/
theorem addReferrer_cycle (n1 n2 : Nat) (db : DB) (A B : Int) (a b : User)
    (hAB : A ≠ B)
    (ha : userByID db.committed A = some a) (hb : userByID db.committed B = some b)
    (haref : a.Referrer = none) (hbref : b.Referrer = none) :
    (AddReferrer (Env.healthy n1) db A ⟨B⟩).2 = none ∧
    (AddReferrer (Env.healthy n2) (AddReferrer (Env.healthy n1) db A ⟨B⟩).1 B ⟨A⟩).2
      = some GoError.ErrInvalidReferrer ∧
    (AddReferrer (Env.healthy n2) (AddReferrer (Env.healthy n1) db A ⟨B⟩).1 B ⟨A⟩).1.committed
      = (AddReferrer (Env.healthy n1) db A ⟨B⟩).1.committed ∧
    referrerOf
      (AddReferrer (Env.healthy n2) (AddReferrer (Env.healthy n1) db A ⟨B⟩).1 B ⟨A⟩).1.committed A
      = some (some B) ∧
    referrerOf
      (AddReferrer (Env.healthy n2) (AddReferrer (Env.healthy n1) db A ⟨B⟩).1 B ⟨A⟩).1.committed B
      = some none := by
  have hBA : ¬ B = A := fun h => hAB h.symm
  rw [addReferrer_healthy n1 db A B a b hAB ha hb haref (by simp [hbref])]
  have hA' := userByID_referred n1 db.committed A B A hAB
  have hB' := userByID_referred n1 db.committed A B B hAB
  rw [ha] at hA'
  rw [hb] at hB'
  simp [hBA] at hA' hB'
  have hsecond : AddReferrer (Env.healthy n2)
      { committed := referred n1 db.committed A B, tx := none, seq := db.seq,
        trace := db.trace ++ [Call.Begin, Call.GetUserByIDWithTx, Call.GetUserByIDWithTx,
          Call.SetReferrer, Call.AddPoint, Call.Commit] } B ⟨A⟩ =
      ({ committed := referred n1 db.committed A B, tx := none, seq := db.seq,
         trace := db.trace ++ [Call.Begin, Call.GetUserByIDWithTx, Call.GetUserByIDWithTx,
          Call.SetReferrer, Call.AddPoint, Call.Commit, Call.Begin, Call.GetUserByIDWithTx,
          Call.GetUserByIDWithTx, Call.Rollback, Call.Rollback] },
        some GoError.ErrInvalidReferrer) := by
    unfold userByID at hA' hB'
    simp [AddReferrer, BeginTransaction, AddReferrerTx, GetUserByIDWithTx, txTables,
      handleTransaction, Rollback, DB.log, Env.healthy, hA', hB', hAB, hbref]
  rw [hsecond]
  refine ⟨rfl, rfl, rfl, ?_, ?_⟩
  · simp [referrerOf, hA']
  · simp [referrerOf, hB', hbref]

/-- C4 at the sample store: user 1 names user 2, then user 2 names user 1. -/
theorem addReferrer_cycle_witness :
    (AddReferrer (Env.healthy 10) sampleDB 1 ⟨2⟩).2 = none ∧
    (AddReferrer (Env.healthy 11) (AddReferrer (Env.healthy 10) sampleDB 1 ⟨2⟩).1 2 ⟨1⟩).2
      = some GoError.ErrInvalidReferrer :=
  ⟨(addReferrer_cycle 10 11 sampleDB 1 2 sampleAlice sampleBob (by decide) (by decide)
      (by decide) (by decide) (by decide)).1,
    (addReferrer_cycle 10 11 sampleDB 1 2 sampleAlice sampleBob (by decide) (by decide)
      (by decide) (by decide) (by decide)).2.1⟩

/-- C5: the three mutating operations at a failed commit, on the sample store
with every repository call succeeding.  `Register` and `AddReferrer` return
the wrapped commit error.  `TaskComplete` returns `nil` although nothing was
committed: the balance of user 1 is still 0 and no completion record exists. -/
theorem commit_failure_outcomes :
    (Register commitFails sampleBcrypt sampleDB ⟨"carol3", "secret3"⟩).2.2
      = some (.Wrap "failed to commit transaction: %w" (.External "conn closed")) ∧
    (AddReferrer commitFails sampleDB 1 ⟨2⟩).2
      = some (.Wrap "failed to commit transaction: %w" (.External "conn closed")) ∧
    (TaskComplete commitFails sampleDB 1 ⟨1⟩).2 = none ∧
    (TaskComplete commitFails sampleDB 1 ⟨1⟩).1.committed = sampleDB.committed ∧
    balanceOf (TaskComplete commitFails sampleDB 1 ⟨1⟩).1.committed 1 = some 0 ∧
    isCompleted (TaskComplete commitFails sampleDB 1 ⟨1⟩).1.committed 1 1 = false := by
  decide

/-- C6: atomicity on error.  For each of `Register`, `AddReferrer` and
`TaskComplete`, for every behaviour of the driver, of the hash function and
every store: when the operation returns an error, the committed tables (user
names, referrers, balances, completion records) are those before the call. -/
theorem error_is_atomic (e : Env) (bc : Bcrypt) (db : DB) (op : Mutation)
    (herr : (op.run e bc db).2 ≠ none) :
    (op.run e bc db).1.committed = db.committed := by
  cases op with
  | register d =>
    revert herr
    simp only [Mutation.run, Register]
    have hb := BeginTransaction_committed e db
    rcases hbeg : BeginTransaction e db with ⟨db1, err | x⟩
    · rw [hbeg] at hb; intro _; exact hb
    · rw [hbeg] at hb
      simp only at hb ⊢
      have hr := RegisterTx_committed e bc db1 d
      rcases hreg : RegisterTx e bc db1 d with ⟨db2, id, err⟩
      rw [hreg] at hr
      simp only at hr ⊢
      intro h
      rw [handleTransaction_error e db2 err h, hr, hb]
  | addReferrer u r =>
    revert herr
    simp only [Mutation.run, AddReferrer]
    split
    · intro _; rfl
    · have hb := BeginTransaction_committed e db
      rcases hbeg : BeginTransaction e db with ⟨db1, err | x⟩
      · rw [hbeg] at hb; intro _; exact hb
      · rw [hbeg] at hb
        simp only at hb ⊢
        have hr := AddReferrerTx_committed e db1 u r.Referrer
        rcases hreg : AddReferrerTx e db1 u r.Referrer with ⟨db2, err⟩
        rw [hreg] at hr
        simp only at hr ⊢
        intro h
        rw [handleTransaction_error e db2 err h, hr, hb]
  | taskComplete u t =>
    revert herr
    simp only [Mutation.run, TaskComplete]
    have hg := GetTask_fst e db t.ID
    rcases hget : GetTask e db t.ID with ⟨db0, err | k⟩
    · rw [hget] at hg; simp only at hg ⊢; subst hg; intro _; rfl
    · rw [hget] at hg; simp only at hg ⊢; subst hg
      have hb := BeginTransaction_committed e (db.log .GetTask)
      rcases hbeg : BeginTransaction e (db.log .GetTask) with ⟨db1, err | x⟩
      · rw [hbeg] at hb; intro _; exact hb
      · rw [hbeg] at hb
        have htx := BeginTransaction_ok hbeg
        simp only at hb ⊢
        have hr := TaskCompleteTx_spec e db1 u k
        rcases hreg : TaskCompleteTx e db1 u k with ⟨db2, err, ret⟩
        rw [hreg] at hr
        simp only at hr ⊢
        intro h
        cases err with
        | some x => rw [handleTransaction_of_err, hr.1, hb]; rfl
        | none =>
          have h2 := hr.2 rfl h
          rw [handleTransaction_untouched e db2 none (by rw [h2, htx, hr.1, hb]), hr.1, hb]
          rfl

/-- C6 at the sample store: `AddReferrer(1, 2)` writes the referrer and the
bonus inside its transaction, the commit fails, and nothing is committed. -/
theorem error_is_atomic_witness :
    (Mutation.run commitFails sampleBcrypt sampleDB (.addReferrer 1 ⟨2⟩)).2 ≠ none ∧
    (Mutation.run commitFails sampleBcrypt sampleDB (.addReferrer 1 ⟨2⟩)).1.committed
      = sampleDB.committed :=
  ⟨by decide,
    error_is_atomic commitFails sampleBcrypt sampleDB (.addReferrer 1 ⟨2⟩) (by decide)⟩

/-- C7: a store error of the locked lookup does not abort `Register`.  On the
sample store the name `carol3` is free and the locked lookup fails with
`ErrFailedExecuteQuery`; `Register` still returns id 3 and `nil`, and the row
of `carol3` is committed. -/
theorem register_ignores_lookup_failure :
    userByName sampleDB.committed "carol3" = none ∧
    (GetUserByNameWithTx lookupFails (BeginTransaction lookupFails sampleDB).1 "carol3").2
      = .error (.Wrap "GetUserByName:  %w" .ErrFailedExecuteQuery) ∧
    (Register lookupFails sampleBcrypt sampleDB ⟨"carol3", "secret3"⟩).2 = (3, none) ∧
    userByName (Register lookupFails sampleBcrypt sampleDB ⟨"carol3", "secret3"⟩).1.committed
      "carol3" = some (newUserRow 9 3 "carol3" "hash:secret3") :=
  ⟨by decide, rfl, by decide, by decide⟩

/-- C8: registering a taken name.  When a user with the name exists and the
transaction can be begun and the locked lookup runs, `Register` returns id 0
and the error `user with username <name> already exists` for every password,
every hash function and every behaviour of the later calls; the committed
tables and the id sequence are unchanged and only `Begin`, the lookup and two
rollbacks were issued (no insert). -/
theorem register_existing_name (e : Env) (bc : Bcrypt) (db : DB) (n p : String) (u : User)
    (hbegin : e.beginFails = false) (hlookup : e.getUserByNameWithTxFails = false)
    (hu : userByName db.committed n = some u) :
    (Register e bc db ⟨n, p⟩).2
      = (0, some (.Errorf ("user with username " ++ n ++ " already exists"))) ∧
    (Register e bc db ⟨n, p⟩).1.committed = db.committed ∧
    (Register e bc db ⟨n, p⟩).1.seq = db.seq ∧
    (Register e bc db ⟨n, p⟩).1.trace
      = db.trace ++ [Call.Begin, Call.GetUserByNameWithTx, Call.Rollback, Call.Rollback] := by
  unfold userByName at hu
  simp [Register, RegisterTx, BeginTransaction, GetUserByNameWithTx, txTables,
    handleTransaction, Rollback, DB.log, hbegin, hlookup, hu]

/-- C8 at the sample store: the name `alice1` is taken. -/
theorem register_existing_name_witness :
    userByName sampleDB.committed "alice1" = some sampleAlice ∧
    (Register commitFails sampleBcrypt sampleDB ⟨"alice1", "other-password"⟩).2
      = (0, some (.Errorf "user with username alice1 already exists")) ∧
    (Register commitFails sampleBcrypt sampleDB ⟨"alice1", "other-password"⟩).1.committed
      = sampleDB.committed :=
  ⟨by decide,
    (register_existing_name commitFails sampleBcrypt sampleDB "alice1" "other-password"
      sampleAlice (by decide) (by decide) (by decide)).1,
    (register_existing_name commitFails sampleBcrypt sampleDB "alice1" "other-password"
      sampleAlice (by decide) (by decide) (by decide)).2.1⟩

/-- C9 (as amended): register, then log in.  When the name is free, the hash
function accepts the password (hashing succeeds), it verifies what it hashed
and no driver call fails, `Register` returns `nil` with an id, and `Login`
with the same credentials returns that id and the same user name. -/
theorem register_then_login (n1 n2 : Nat) (bc : Bcrypt) (db : DB) (n p : String)
    (hverify : ∀ pw h, bc.GenerateFromPassword pw = .ok h → bc.CompareHashAndPassword h pw = none)
    (hhash : ∃ h, bc.GenerateFromPassword p = .ok h)
    (hfree : userByName db.committed n = none) :
    (Register (Env.healthy n1) bc db ⟨n, p⟩).2.2 = none ∧
    (Login (Env.healthy n2) bc (Register (Env.healthy n1) bc db ⟨n, p⟩).1 ⟨n, p⟩).2
      = .ok { ID := (Register (Env.healthy n1) bc db ⟨n, p⟩).2.1, UserName := n } := by
  obtain ⟨h, hh⟩ := hhash
  have hv := hverify p h hh
  unfold userByName at hfree
  have hreg : Register (Env.healthy n1) bc db ⟨n, p⟩ =
      ({ committed := { db.committed with
            users := db.committed.users ++ [newUserRow n1 (db.seq + 1) n h] },
         tx := none, seq := db.seq + 1,
         trace := db.trace ++ [Call.Begin, Call.GetUserByNameWithTx, Call.CreateUserWithTx,
           Call.Commit] }, db.seq + 1, none) := by
    simp [Register, RegisterTx, BeginTransaction, GetUserByNameWithTx, CreateUserWithTx,
      txTables, handleTransaction, Commit, DB.log, Env.healthy, hfree, hh]
  rw [hreg]
  refine ⟨rfl, ?_⟩
  simp [Login, GetUserByName, connTables, DB.log, Env.healthy, List.find?_append, hfree,
    newUserRow, hv]

/-- C9 at the sample store: `carol3` registers with id 3 and logs in. -/
theorem register_then_login_witness :
    (Register (Env.healthy 10) sampleBcrypt sampleDB ⟨"carol3", "secret3"⟩).2 = (3, none) ∧
    (Login (Env.healthy 11) sampleBcrypt
        (Register (Env.healthy 10) sampleBcrypt sampleDB ⟨"carol3", "secret3"⟩).1
        ⟨"carol3", "secret3"⟩).2
      = .ok { ID := 3, UserName := "carol3" } :=
  ⟨by decide,
    (register_then_login 10 11 sampleBcrypt sampleDB "carol3" "secret3"
      (by intro pw h hh; simp only [sampleBcrypt, Except.ok.injEq] at hh; simp [sampleBcrypt, hh])
      ⟨_, rfl⟩ (by decide)).2⟩

/-- C9 as stated fails for a valid password that `bcrypt` refuses: the name
`carol3` is valid and free, the password has 20 characters and so passes the
binding rules, but it is 80 bytes long.  With a hash function that verifies
what it hashed and no driver failure, `Register` returns id 0 and the error of
`GenerateFromPassword`, no user is created, and `Login` with the same
credentials fails. -/
theorem register_refuses_long_password :
    validCredentials ⟨"carol3", longPassword⟩ = true ∧
    longPassword.length = 20 ∧ longPassword.utf8ByteSize = 80 ∧
    userByName sampleDB.committed "carol3" = none ∧
    (∀ pw h, lengthCheckingBcrypt.GenerateFromPassword pw = .ok h →
      lengthCheckingBcrypt.CompareHashAndPassword h pw = none) ∧
    (Register (Env.healthy 10) lengthCheckingBcrypt sampleDB ⟨"carol3", longPassword⟩).2
      = (0, some (.External "bcrypt: password length exceeds 72 bytes")) ∧
    (Register (Env.healthy 10) lengthCheckingBcrypt sampleDB
      ⟨"carol3", longPassword⟩).1.committed = sampleDB.committed ∧
    (Login (Env.healthy 11) lengthCheckingBcrypt
        (Register (Env.healthy 10) lengthCheckingBcrypt sampleDB ⟨"carol3", longPassword⟩).1
        ⟨"carol3", longPassword⟩).2
      = .error (.Wrap "Login: error getting user: %w"
          (.Wrap "GetUserByName:  %w" .ErrUserNotFound)) := by
  refine ⟨by decide, by decide, by decide, by decide, ?_, by decide, by decide, rfl⟩
  intro pw h hh
  simp only [lengthCheckingBcrypt] at hh ⊢
  split at hh
  · cases hh
  · simp only [Except.ok.injEq] at hh
    simp [hh]

/-- C10: wrong password.  When the user exists, the lookup runs and the
comparison of the stored hash with the password fails, `Login` returns the
error `incorrect password` wrapping the comparison error, and no identity.
On every path `Login` leaves the committed tables, the transaction state and
the id sequence as they were and issues exactly one call, the lookup by name. -/
theorem login_wrong_password (e : Env) (bc : Bcrypt) (db : DB) (n p : String) (u : User)
    (mismatch : GoError)
    (hread : e.getUserByNameFails = false)
    (hu : userByName db.committed n = some u)
    (hbad : bc.CompareHashAndPassword u.Password p = some mismatch) :
    (Login e bc db ⟨n, p⟩).2 = .error (.Wrap "incorrect password: %w" mismatch) ∧
    ∀ (e1 : Env) (bc1 : Bcrypt) (db1 : DB) (d : UserRegLogDTO),
      (Login e1 bc1 db1 d).1.committed = db1.committed ∧
      (Login e1 bc1 db1 d).1.tx = db1.tx ∧
      (Login e1 bc1 db1 d).1.seq = db1.seq ∧
      (Login e1 bc1 db1 d).1.trace = db1.trace ++ [Call.GetUserByName] := by
  constructor
  · unfold userByName at hu
    simp [Login, GetUserByName, connTables, hread, hu, hbad]
  · intro e1 bc1 db1 d
    have h1 := GetUserByName_fst e1 db1 d.UserName
    unfold Login
    rcases hg : GetUserByName e1 db1 d.UserName with ⟨db2, err | su⟩
    · rw [hg] at h1; simp only at h1 ⊢; subst h1; exact ⟨rfl, rfl, rfl, rfl⟩
    · rw [hg] at h1; simp only at h1 ⊢; subst h1
      cases bc1.CompareHashAndPassword su.Password d.Password <;> exact ⟨rfl, rfl, rfl, rfl⟩

/-- C10 at the sample store: `alice1` with a wrong password. -/
theorem login_wrong_password_witness :
    (Login (Env.healthy 12) sampleBcrypt sampleDB ⟨"alice1", "guess"⟩).2
      = .error (.Wrap "incorrect password: %w"
          (.External "hashedPassword is not the hash of the given password")) :=
  (login_wrong_password (Env.healthy 12) sampleBcrypt sampleDB "alice1" "guess" sampleAlice
    (.External "hashedPassword is not the hash of the given password")
    (by decide) (by decide) (by decide)).1

/-! ## Lemmas for the read operations, the token core and the invariants -/

/-- Integers of magnitude up to `2 ^ 53` are `float64` values. -/
theorem roundToFloat64_exact (n : Int) (h1 : -(2 ^ 53) ≤ n) (h2 : n ≤ 2 ^ 53) :
    roundToFloat64 n = n := by
  by_cases hlt : n.natAbs < 2 ^ 53
  · have h0 : excessBits 1024 n.natAbs = 0 := by
      show (if n.natAbs < 2 ^ 53 then 0 else excessBits 1023 (n.natAbs / 2) + 1) = 0
      rw [if_pos hlt]
    unfold roundToFloat64
    rw [if_pos h0]
  · have hn : n = 2 ^ 53 ∨ n = -(2 ^ 53) := by omega
    rcases hn with rfl | rfl <;> decide

/-- Within the range of `int`, converting an integer-valued `float64` gives the
integer. -/
theorem intOfFloat64_exact (n : Int) (h1 : -(2 ^ 63) ≤ n) (h2 : n < 2 ^ 63) :
    intOfFloat64 n = n := by
  unfold intOfFloat64
  rw [if_pos ⟨h1, h2⟩]

/-- With a working store `GenerateToken` returns the signed token and its
expiry and appends one unrevoked row. -/
theorem GenerateToken_ok (key : String) (e : TokenEnv) (ts : List TokenRow) (i : Int)
    (h : e.storeTokenFails = false) :
    GenerateToken key e ts i =
      (ts ++ [{ user_id := i, token := issuedToken key e.now i, expires_at := e.now + day,
                is_revoked := false }],
        .ok (issuedToken key e.now i, e.now + day)) := by
  simp [GenerateToken, SignedString, TokenRepo.StoreToken, TokenRepo.execStoreToken,
    issuedToken, h]

/-- When the insert fails `GenerateToken` leaves the table alone. -/
theorem GenerateToken_fails (key : String) (e : TokenEnv) (ts : List TokenRow) (i : Int)
    (h : e.storeTokenFails = true) : (GenerateToken key e ts i).1 = ts := by
  simp [GenerateToken, SignedString, TokenRepo.StoreToken, h]

/-- The service method returns what the repository method returns. -/
theorem RevokeToken_eq (e : TokenEnv) (ts : List TokenRow) (t : TokenString) :
    RevokeToken e ts t = TokenRepo.RevokeToken e ts t := by
  unfold RevokeToken
  rcases TokenRepo.RevokeToken e ts t with ⟨ts1, _ | err⟩ <;> rfl

/-- A token issued by `GenerateToken` parses under the same secret as long as
the signed expiry lies ahead. -/
theorem jwtParse_issued (key : String) (n0 now : Nat) (i : Int)
    (hlive : (now : Int) < roundToFloat64 (Unix (n0 + day)) * (second : Int)) :
    jwtParse (keyFunc key) now (issuedToken key n0 i) =
      .ok { Valid := true,
            Claims := JWS.claims { alg := "HS256", user_id := .number i,
                                   exp := .number (Unix (n0 + day)), key := some key } } := by
  simp [jwtParse, keyFunc, issuedToken, hlive]

/-- When every row of a token string is revoked, the persisted check fails at
every instant. -/
theorem tokenIsValid_of_allRevoked {ts : List TokenRow} {t : TokenString}
    (h : allRevoked ts t) (dbNow : Nat) : tokenIsValid dbNow ts t = false := by
  unfold tokenIsValid
  rw [List.any_eq_false]
  intro r hr
  by_cases ht : r.token = t
  · simp [h r hr ht]
  · simp [ht]

/-- After a revocation that the store executed, every row of the token string
is revoked. -/
theorem allRevoked_RevokeToken (e : TokenEnv) (ts : List TokenRow) (t : TokenString)
    (h : e.revokeTokenFails = false) : allRevoked (RevokeToken e ts t).1 t := by
  rw [RevokeToken_eq]
  simp only [TokenRepo.RevokeToken, h]
  intro r hr ht
  simp only [Bool.false_eq_true, if_false, List.mem_map] at hr
  obtain ⟨r0, _, rfl⟩ := hr
  by_cases h0 : r0.token = t
  · simp [h0]
  · simp [h0] at ht

/-- A revocation of any token string keeps the rows of a revoked string
revoked. -/
theorem allRevoked_after_RevokeToken (e : TokenEnv) (ts : List TokenRow) (t t1 : TokenString)
    (h : allRevoked ts t) : allRevoked (RevokeToken e ts t1).1 t := by
  rw [RevokeToken_eq]
  unfold TokenRepo.RevokeToken
  split
  · exact h
  · intro r hr ht
    simp only [List.mem_map] at hr
    obtain ⟨r0, hr0, rfl⟩ := hr
    by_cases h0 : r0.token = t1
    · simp [h0]
    · simp [h0] at ht ⊢
      exact h r0 hr0 ht

/-- When the persisted check fails, `ValidateToken` returns id 0 and an
error. -/
theorem ValidateToken_of_not_valid (key : String) (e : TokenEnv) (ts : List TokenRow)
    (t : TokenString) (h : tokenIsValid e.dbNow ts t = false) :
    (ValidateToken key e ts t).1 = 0 ∧ (ValidateToken key e ts t).2 ≠ none := by
  unfold ValidateToken
  cases jwtParse (keyFunc key) e.now t with
  | error err => simp
  | ok p =>
    simp only
    split
    · simp
    · split
      · have hv : (TokenRepo.IsTokenValid e ts t).1 = false := by
          unfold TokenRepo.IsTokenValid
          split
          · rfl
          · exact h
        rcases hq : TokenRepo.IsTokenValid e ts t with ⟨b, err⟩
        rw [hq] at hv
        simp only at hv
        subst hv
        simp
      · simp

/-- A call of the token service that does not store the token string `t` keeps
the rows of `t` revoked. -/
theorem allRevoked_run (key : String) (e : TokenEnv) (ts : List TokenRow) (t : TokenString)
    (op : TokenOp) (h : allRevoked ts t) (hfresh : storesString key t (e, op) = false) :
    allRevoked (op.run key e ts) t := by
  cases op with
  | validate t1 => exact h
  | revoke t1 => exact allRevoked_after_RevokeToken e ts t t1 h
  | generate i =>
    simp only [TokenOp.run]
    cases hs : e.storeTokenFails with
    | true => rw [GenerateToken_fails key e ts i hs]; exact h
    | false =>
      rw [GenerateToken_ok key e ts i hs]
      intro r hr ht
      simp only [List.mem_append, List.mem_singleton] at hr
      rcases hr with hr | rfl
      · exact h r hr ht
      · simp [storesString, hs] at hfresh
        exact absurd ht hfresh

/-- A sequence of calls none of which stores the token string `t` keeps the
rows of `t` revoked. -/
theorem allRevoked_runTokenOps (key : String) (t : TokenString)
    (ops : List (TokenEnv × TokenOp)) :
    ∀ ts : List TokenRow, allRevoked ts t →
      (∀ x ∈ ops, storesString key t x = false) →
      allRevoked (runTokenOps key ts ops) t := by
  induction ops with
  | nil => intro ts h _; exact h
  | cons x rest ih =>
    intro ts h hfresh
    rcases x with ⟨e, op⟩
    simp only [runTokenOps]
    apply ih
    · exact allRevoked_run key e ts t op h (hfresh (e, op) (by simp))
    · intro y hy
      exact hfresh y (by simp [hy])

/-- The deferred handler either leaves the committed tables alone or, entered
with `*err` at `nil`, publishes the working copy. -/
theorem handleTransaction_committed (e : Env) (db : DB) (err : Option GoError) :
    (handleTransaction e db err).1.committed = db.committed ∨
    (err = none ∧ ∃ t, db.tx = some t ∧ (handleTransaction e db err).1.committed = t) := by
  unfold handleTransaction Commit
  cases err with
  | some x => exact Or.inl rfl
  | none =>
    cases htx : db.tx with
    | none => exact Or.inl rfl
    | some t =>
      cases e.commitErr with
      | some ce => exact Or.inl rfl
      | none => exact Or.inr ⟨rfl, t, rfl, rfl⟩

/-- When the transaction body of `Register` ends without error, the working
copy is the one it started from with one new row: id from the sequence,
balance 0, no referrer. -/
theorem RegisterTx_tx (e : Env) (bc : Bcrypt) (db : DB) (d : UserRegLogDTO) (t0 : Tables)
    (htx : db.tx = some t0) (hok : (RegisterTx e bc db d).2.2 = none) :
    ∃ h, (RegisterTx e bc db d).1.tx
      = some (registered t0 (newUserRow e.now (db.seq + 1) d.UserName h)) := by
  revert hok
  unfold RegisterTx
  have h1 := GetUserByNameWithTx_fst e db d.UserName
  rcases hg : GetUserByNameWithTx e db d.UserName with ⟨db1, err | u⟩
  · rw [hg] at h1
    simp only at h1 ⊢
    subst h1
    cases bc.GenerateFromPassword d.Password with
    | error err1 => intro h; simp at h
    | ok hp =>
      simp only [CreateUserWithTx, txTables, DB.log, htx]
      cases e.createUserFails with
      | true => intro h; simp at h
      | false => intro _; exact ⟨hp, rfl⟩
  · intro h; simp at h

/-- When the transaction body of `AddReferrer` ends without error, the acting
user was found without referrer and the working copy is the one it started
from with the referral applied. -/
theorem AddReferrerTx_tx (e : Env) (db : DB) (u r : Int) (t0 : Tables)
    (htx : db.tx = some t0) (hok : (AddReferrerTx e db u r).2 = none) :
    (∃ a, userByID t0 u = some a ∧ a.Referrer = none) ∧
    (AddReferrerTx e db u r).1.tx = some (referred e.now t0 u r) := by
  revert hok
  unfold AddReferrerTx
  simp only [GetUserByIDWithTx, txTables, htx, DB.log, userByID]
  cases e.getUserByIDWithTxFails with
  | true => intro h; simp at h
  | false =>
    simp only [Bool.false_eq_true, if_false]
    cases hfu : List.find? (fun x => x.ID == u) t0.users with
    | none => intro h; simp at h
    | some a =>
      simp only
      by_cases href : a.Referrer = none
      · simp only [href, ne_eq, not_true_eq_false, if_false]
        cases e.getReferrerByIDWithTxFails with
        | true => intro h; simp at h
        | false =>
          simp only [Bool.false_eq_true, if_false]
          cases List.find? (fun x => x.ID == r) t0.users with
          | none => intro h; simp at h
          | some b =>
            simp only
            split
            · intro h; simp [Rollback] at h
            · simp only [SetReferrer, AddPoint, txTables, DB.log]
              cases e.setReferrerFails with
              | true => intro h; simp at h
              | false =>
                simp only [Bool.false_eq_true, if_false]
                cases e.addPointFails with
                | true => intro h; simp at h
                | false => intro _; exact ⟨⟨a, rfl, href⟩, rfl⟩
      · simp only [ne_eq, href, not_false_eq_true, if_true]
        intro h; simp at h

/-- When the transaction body of `TaskComplete` ends with the local `err` at
`nil`, either it returns an error and has not touched the working copy, or it
returns `nil` and the working copy has the reward credited and the completion
record appended. -/
theorem TaskCompleteTx_tx (e : Env) (db : DB) (u : Int) (k : Task) (t0 : Tables)
    (htx : db.tx = some t0) (hok : (TaskCompleteTx e db u k).2.1 = none) :
    (TaskCompleteTx e db u k).1.tx = some t0 ∨
    (TaskCompleteTx e db u k).1.tx = some (taskCompleted e.now t0 u k) := by
  revert hok
  unfold TaskCompleteTx
  simp only [IsCompletedTask, txTables, htx, DB.log]
  cases e.isCompletedTaskFails with
  | true => intro h; simp at h
  | false =>
    simp only [Bool.false_eq_true, if_false]
    split
    · intro _; exact Or.inl rfl
    · simp only [AddPoint, AddCompletedTask, txTables, DB.log]
      cases e.addPointFails with
      | true => intro h; simp at h
      | false =>
        simp only [Bool.false_eq_true, if_false]
        cases e.addCompletedTaskFails with
        | true => intro h; simp at h
        | false => intro _; exact Or.inr rfl

/-- The store a successfully begun transaction starts in. -/
theorem BeginTransaction_ok_eq {e : Env} {db db1 : DB} {x : Unit}
    (h : BeginTransaction e db = (db1, .ok x)) :
    db1 = { db.log .Begin with tx := some db.committed } := by
  unfold BeginTransaction at h
  split at h
  · simp at h
  · simp only [Prod.mk.injEq] at h
    exact h.1.symm

/-- The task `GetTask` returns is the one the catalog holds under the id. -/
theorem GetTask_ok {e : Env} {db db1 : DB} {id : Int} {k : Task}
    (h : GetTask e db id = (db1, .ok k)) : taskByID db.committed id = some k := by
  unfold GetTask connTables at h
  unfold taskByID
  cases hf : e.getTaskFails with
  | true => simp [hf] at h
  | false =>
    simp only [hf, Bool.false_eq_true, if_false] at h
    cases hfind : List.find? (fun k => k.ID == id) db.committed.tasks with
    | none => rw [hfind] at h; simp at h
    | some k1 =>
      rw [hfind] at h
      simp only [Prod.mk.injEq, Except.ok.injEq] at h
      rw [h.2]

/-- The lookup by id on the connection only adds its call to the trace. -/
theorem GetUserByID_fst (e : Env) (db : DB) (id : Int) :
    (GetUserByID e db id).1 = db.log .GetUserByID := by
  unfold GetUserByID
  split
  · rfl
  · split <;> rfl

/-- The leaderboard query only adds its call to the trace. -/
theorem GetUserLeaderboard_fst (e : Env) (db : DB) :
    (GetUserLeaderboard e db).1 = db.log .GetUserLeaderboard := by
  unfold GetUserLeaderboard
  split <;> rfl

/-- The method `Login` leaves the committed tables alone. -/
theorem Login_committed (e : Env) (bc : Bcrypt) (db : DB) (d : UserRegLogDTO) :
    (Login e bc db d).1.committed = db.committed := by
  have h1 := GetUserByName_fst e db d.UserName
  unfold Login
  rcases hg : GetUserByName e db d.UserName with ⟨db2, err | su⟩
  · rw [hg] at h1; simp only at h1 ⊢; subst h1; rfl
  · rw [hg] at h1; simp only at h1 ⊢; subst h1
    cases bc.CompareHashAndPassword su.Password d.Password <;> rfl

/-- The method `UserStatus` leaves the committed tables alone. -/
theorem UserStatus_committed (e : Env) (db : DB) (id : Int) :
    (UserStatus e db id).1.committed = db.committed := by
  have h1 := GetUserByID_fst e db id
  unfold UserStatus
  rcases hg : GetUserByID e db id with ⟨db2, err | su⟩
  · rw [hg] at h1; simp only at h1 ⊢; subst h1; rfl
  · rw [hg] at h1; simp only at h1 ⊢; subst h1; rfl

/-- The method `UserLeaderboard` leaves the committed tables alone. -/
theorem UserLeaderboard_committed (e : Env) (db : DB) :
    (UserLeaderboard e db).1.committed = db.committed := by
  have h1 := GetUserLeaderboard_fst e db
  unfold UserLeaderboard
  rcases hg : GetUserLeaderboard e db with ⟨db2, l, _ | err⟩
  · rw [hg] at h1; simp only at h1 ⊢; subst h1; rfl
  · rw [hg] at h1; simp only at h1 ⊢; subst h1; rfl

/-- The effect of `Register` on the committed tables. -/
theorem Register_effect (e : Env) (bc : Bcrypt) (db : DB) (d : UserRegLogDTO) :
    Effect db.committed (Register e bc db d).1.committed := by
  unfold Register
  have hb := BeginTransaction_committed e db
  rcases hbeg : BeginTransaction e db with ⟨db1, err | x⟩
  · rw [hbeg] at hb
    simp only at hb ⊢
    rw [hb]
    exact Effect.unchanged
  · have hdb1 := BeginTransaction_ok_eq hbeg
    simp only
    have hc := RegisterTx_committed e bc db1 d
    have ht := RegisterTx_tx e bc db1 d db.committed (by rw [hdb1])
    rcases hreg : RegisterTx e bc db1 d with ⟨db2, id, err⟩
    rw [hreg] at hc ht
    simp only at hc ht ⊢
    rcases handleTransaction_committed e db2 err with h | ⟨herr, t, htx, h⟩
    · rw [h, hc, hdb1]
      exact Effect.unchanged
    · obtain ⟨hp, hp2⟩ := ht herr
      rw [htx] at hp2
      rw [h, Option.some.inj hp2]
      exact Effect.registered _ _ _ _

/-- The effect of `AddReferrer` on the committed tables. -/
theorem AddReferrer_effect (e : Env) (db : DB) (u : Int) (ref : ReferrerDTO) :
    Effect db.committed (AddReferrer e db u ref).1.committed := by
  unfold AddReferrer
  split
  · exact Effect.unchanged
  · rename_i hne
    have hb := BeginTransaction_committed e db
    rcases hbeg : BeginTransaction e db with ⟨db1, err | x⟩
    · rw [hbeg] at hb
      simp only at hb ⊢
      rw [hb]
      exact Effect.unchanged
    · have hdb1 := BeginTransaction_ok_eq hbeg
      simp only
      have hc := AddReferrerTx_committed e db1 u ref.Referrer
      have ht := AddReferrerTx_tx e db1 u ref.Referrer db.committed (by rw [hdb1])
      rcases hreg : AddReferrerTx e db1 u ref.Referrer with ⟨db2, err⟩
      rw [hreg] at hc ht
      simp only at hc ht ⊢
      rcases handleTransaction_committed e db2 err with h | ⟨herr, t, htx, h⟩
      · rw [h, hc, hdb1]
        exact Effect.unchanged
      · obtain ⟨⟨a, ha, href⟩, hp2⟩ := ht herr
        rw [htx] at hp2
        rw [h, Option.some.inj hp2]
        exact Effect.referred _ _ _ a (fun h => hne h.symm) ha href

/-- The effect of `TaskComplete` on the committed tables. -/
theorem TaskComplete_effect (e : Env) (db : DB) (u : Int) (task : TaskDTO) :
    Effect db.committed (TaskComplete e db u task).1.committed := by
  unfold TaskComplete
  have hg := GetTask_fst e db task.ID
  rcases hget : GetTask e db task.ID with ⟨db0, err | k⟩
  · rw [hget] at hg; simp only at hg ⊢; subst hg
    exact Effect.unchanged
  · have hk := GetTask_ok hget
    rw [hget] at hg; simp only at hg ⊢; subst hg
    have hb := BeginTransaction_committed e (db.log .GetTask)
    rcases hbeg : BeginTransaction e (db.log .GetTask) with ⟨db1, err | x⟩
    · rw [hbeg] at hb
      simp only at hb ⊢
      rw [hb]
      exact Effect.unchanged
    · have hdb1 := BeginTransaction_ok_eq hbeg
      simp only
      have hc := (TaskCompleteTx_spec e db1 u k).1
      have ht := TaskCompleteTx_tx e db1 u k db.committed (by rw [hdb1]; rfl)
      rcases hreg : TaskCompleteTx e db1 u k with ⟨db2, err, ret⟩
      rw [hreg] at hc ht
      simp only at hc ht ⊢
      rcases handleTransaction_committed e db2 err with h | ⟨herr, t, htx, h⟩
      · rw [h, hc, hdb1]
        exact Effect.unchanged
      · rcases ht herr with hp2 | hp2
        · rw [htx] at hp2
          rw [h, Option.some.inj hp2]
          exact Effect.unchanged
        · rw [htx] at hp2
          rw [h, Option.some.inj hp2]
          exact Effect.taskCompleted _ _ _ (List.mem_of_find?_eq_some hk)

/-- The effect of a mutating call on the committed tables. -/
theorem Mutation_effect (e : Env) (bc : Bcrypt) (db : DB) (op : Mutation) :
    Effect db.committed (op.run e bc db).1.committed := by
  cases op with
  | register d => exact Register_effect e bc db d
  | addReferrer u r => exact AddReferrer_effect e db u r
  | taskComplete u t => exact TaskComplete_effect e db u t

/-- The effect of any call of the user service on the committed tables. -/
theorem Operation_effect (e : Env) (bc : Bcrypt) (db : DB) (op : Operation) :
    Effect db.committed (op.run e bc db).committed := by
  cases op with
  | register d => exact Register_effect e bc db d
  | login d => simp only [Operation.run, Login_committed]; exact Effect.unchanged
  | userStatus id => simp only [Operation.run, UserStatus_committed]; exact Effect.unchanged
  | userLeaderboard =>
    simp only [Operation.run, UserLeaderboard_committed]; exact Effect.unchanged
  | addReferrer u r => exact AddReferrer_effect e db u r
  | taskComplete u t => exact TaskComplete_effect e db u t

/-- A user found before a registration is found unchanged after it. -/
theorem userByID_registered (t : Tables) (row u : User) (v : Int)
    (h : userByID t v = some u) : userByID (registered t row) v = some u := by
  unfold userByID at h ⊢
  simp [registered, List.find?_append, h]

/-- The row of a user after a task completion by the user `u`. -/
theorem userByID_taskCompleted (now : Nat) (t : Tables) (u : Int) (k : Task) (v : Int) :
    userByID (taskCompleted now t u k) v =
      (userByID t v).map (fun x => if x.ID == u then
        { x with Balance := x.Balance + k.Reward, UpdateBalance := now } else x) := by
  simp only [userByID, taskCompleted, credited]
  rw [find?_ID_map _ _ (by intro x; split <;> rfl)]

/-- No effect of a call changes the task catalog. -/
theorem Effect.tasks_eq {t t1 : Tables} (h : Effect t t1) : t1.tasks = t.tasks := by
  cases h <;> rfl

/-- No effect of a call changes or clears a referrer that is set. -/
theorem Effect.referrer_kept {t t1 : Tables} (h : Effect t t1) (v r : Int)
    (hv : referrerOf t v = some (some r)) : referrerOf t1 v = some (some r) := by
  unfold referrerOf at hv ⊢
  cases hu : userByID t v with
  | none => rw [hu] at hv; simp at hv
  | some x =>
    rw [hu] at hv
    simp only [Option.map_some', Option.some.injEq] at hv
    cases h with
    | unchanged => rw [hu]; simp [hv]
    | registered now id name hash =>
      rw [userByID_registered t _ x v hu]; simp [hv]
    | referred now A B a hAB ha href =>
      rw [userByID_referred now t A B v hAB, hu]
      have hvA : v ≠ A := by
        intro h
        subst h
        rw [ha] at hu
        cases hu
        rw [href] at hv
        cases hv
      have hBA : ¬ B = A := fun h => hAB h.symm
      by_cases hvB : v = B <;> simp [hvA, hvB, hv, hBA]
    | taskCompleted now u k hk =>
      rw [userByID_taskCompleted, hu]
      by_cases hx : x.ID = u <;> simp [hx, hv]

/-- With a catalog of rewards that are not negative, no effect of a call makes
a balance negative. -/
theorem Effect.balances_nonneg {t t1 : Tables} (h : Effect t t1)
    (hrew : ∀ k ∈ t.tasks, 0 ≤ k.Reward) (hbal : ∀ u ∈ t.users, 0 ≤ u.Balance) :
    ∀ u ∈ t1.users, 0 ≤ u.Balance := by
  cases h with
  | unchanged => exact hbal
  | registered now id name hash =>
    intro u hu
    simp only [UserManagement.registered, List.mem_append, List.mem_singleton] at hu
    rcases hu with hu | rfl
    · exact hbal u hu
    · simp [newUserRow]
  | referred now A B a hAB ha href =>
    intro u hu
    simp only [UserManagement.referred, List.mem_map] at hu
    obtain ⟨x, ⟨y, hy, rfl⟩, rfl⟩ := hu
    have := hbal y hy
    by_cases h1 : y.ID = A
    · simp [h1, hAB]
      omega
    · by_cases h2 : y.ID = B
      · have hBA : ¬ B = A := fun h => h1 (h2.trans h)
        simp [h2, hBA]
        omega
      · simp [h1, h2]
        omega
  | taskCompleted now u k hk =>
    intro x hx
    simp only [UserManagement.taskCompleted, credited, List.mem_map] at hx
    obtain ⟨y, hy, rfl⟩ := hx
    have h1 := hbal y hy
    have h2 := hrew k hk
    by_cases h3 : y.ID = u <;> simp [h3] <;> omega

/-- With a catalog of rewards that are not negative, no effect of a call
lowers the balance of a user. -/
theorem Effect.balance_grows {t t1 : Tables} (h : Effect t t1)
    (hrew : ∀ k ∈ t.tasks, 0 ≤ k.Reward) (v b : Int) (hv : balanceOf t v = some b) :
    ∃ b1, balanceOf t1 v = some b1 ∧ b ≤ b1 := by
  unfold balanceOf at hv ⊢
  cases hu : userByID t v with
  | none => rw [hu] at hv; simp at hv
  | some x =>
    rw [hu] at hv
    simp only [Option.map_some', Option.some.injEq] at hv
    cases h with
    | unchanged => exact ⟨b, by rw [hu]; simp [hv], le_refl b⟩
    | registered now id name hash =>
      exact ⟨b, by rw [userByID_registered t _ x v hu]; simp [hv], le_refl b⟩
    | referred now A B a hAB ha href =>
      rw [userByID_referred now t A B v hAB, hu]
      by_cases hvA : v = A
      · exact ⟨b, by simp [hvA, hv], le_refl b⟩
      · by_cases hvB : v = B
        · have hBA : ¬ B = A := fun h => hAB h.symm
          exact ⟨b + 80, by simp [hvB, hv, hBA], by omega⟩
        · exact ⟨b, by simp [hvA, hvB, hv], le_refl b⟩
    | taskCompleted now u k hk =>
      rw [userByID_taskCompleted, hu]
      have h2 := hrew k hk
      by_cases hx : x.ID = u
      · exact ⟨b + k.Reward, by simp [hx, hv], by omega⟩
      · exact ⟨b, by simp [hx, hv], le_refl b⟩

/-- For an existing user and a working lookup, `UserStatus` returns the id,
name, balance, balance time stamp, referrer and creation time of the stored
row. -/
theorem UserStatus_existing (e : Env) (db : DB) (id : Int) (u : User)
    (hread : e.getUserByIDFails = false) (hu : userByID db.committed id = some u) :
    (UserStatus e db id).2 =
      .ok { ID := u.ID, UserName := u.UserName, Balance := u.Balance,
            UpdatedBalance := u.UpdateBalance, Referrer := u.Referrer,
            CreatedAt := u.CreatedAt } := by
  unfold userByID at hu
  simp [UserStatus, GetUserByID, connTables, hread, hu]

/-- The rows of the leaderboard query: at most ten, in non-increasing order of
balance, each the id, name and balance of a stored user. -/
theorem leaderboardRows_spec (t : Tables) :
    (leaderboardRows t).length ≤ 10 ∧
    (leaderboardRows t).Pairwise (fun a b => b.Balance ≤ a.Balance) ∧
    ∀ x ∈ leaderboardRows t, ∃ u ∈ t.users,
      x = { ID := u.ID, UserName := u.UserName, Balance := u.Balance } := by
  haveI : IsTotal User (fun a b => b.Balance ≤ a.Balance) := ⟨fun a b => le_total _ _⟩
  haveI : IsTrans User (fun a b => b.Balance ≤ a.Balance) :=
    ⟨fun a b c hab hbc => le_trans hbc hab⟩
  have hsorted : (t.users.insertionSort (fun a b => b.Balance ≤ a.Balance)).Pairwise
      (fun a b => b.Balance ≤ a.Balance) :=
    List.sorted_insertionSort (fun a b : User => b.Balance ≤ a.Balance) t.users
  refine ⟨?_, ?_, ?_⟩
  · simp only [leaderboardRows, List.length_map]
    exact List.length_take_le _ _
  · simp only [leaderboardRows]
    rw [List.pairwise_map]
    exact hsorted.sublist (List.take_sublist _ _)
  · intro x hx
    simp only [leaderboardRows, List.mem_map] at hx
    obtain ⟨u, hu, rfl⟩ := hx
    have h1 := List.mem_of_mem_take hu
    have h2 := (List.perm_insertionSort (fun a b : User => b.Balance ≤ a.Balance)
      t.users).mem_iff.mp h1
    exact ⟨u, h2, rfl⟩

/-! ## The claims on status, tokens, invariants and the leaderboard -/

/-- C11: the status of an unknown user.  On the sample store no user has the
id 99 and no driver call fails, yet `UserStatus(99)` returns an error that
wraps `ErrFailedExecuteQuery`, is not `ErrUserNotFound`, and equals the error
returned for user 1 when the lookup itself fails.  The lookup by name, used by
`Login`, does answer an unknown name with `ErrUserNotFound`. -/
theorem userStatus_unknown_id :
    userByID sampleDB.committed 99 = none ∧
    (UserStatus (Env.healthy 9) sampleDB 99).2
      = .error (.Wrap "UserStatus: error getting user: %w"
          (.Wrap "GetUserByID: %w" .ErrFailedExecuteQuery)) ∧
    GoError.Is (.Wrap "UserStatus: error getting user: %w"
      (.Wrap "GetUserByID: %w" .ErrFailedExecuteQuery)) .ErrUserNotFound = false ∧
    GoError.Is (.Wrap "UserStatus: error getting user: %w"
      (.Wrap "GetUserByID: %w" .ErrFailedExecuteQuery)) .ErrFailedExecuteQuery = true ∧
    (UserStatus statusQueryFails sampleDB 1).2 = (UserStatus (Env.healthy 9) sampleDB 99).2 ∧
    (Login (Env.healthy 9) sampleBcrypt sampleDB ⟨"nobody", "secret"⟩).2
      = .error (.Wrap "Login: error getting user: %w"
          (.Wrap "GetUserByName:  %w" .ErrUserNotFound)) ∧
    GoError.Is (.Wrap "Login: error getting user: %w"
      (.Wrap "GetUserByName:  %w" .ErrUserNotFound)) .ErrUserNotFound = true :=
  ⟨by decide, rfl, by decide, by decide, rfl, rfl, by decide⟩

/-- C12 (as amended): for every user id of magnitude at most `2 ^ 53`, when the
insert of the token succeeds and the token is validated against the resulting
table while its signed expiry and its stored expiry lie ahead and the validity
query runs, `ValidateToken` returns exactly that id and no error. -/
theorem generate_then_validate (key : String) (e0 e1 : TokenEnv) (ts : List TokenRow) (i : Int)
    (hlo : -(2 ^ 53) ≤ i) (hhi : i ≤ 2 ^ 53)
    (hstore : e0.storeTokenFails = false) (hquery : e1.isTokenValidFails = false)
    (hsigned : (e1.now : Int) < roundToFloat64 (Unix (e0.now + day)) * (second : Int))
    (hstored : e1.dbNow < e0.now + day) :
    (GenerateToken key e0 ts i).2 = .ok (issuedToken key e0.now i, e0.now + day) ∧
    ValidateToken key e1 (GenerateToken key e0 ts i).1 (issuedToken key e0.now i) = (i, none) := by
  rw [GenerateToken_ok key e0 ts i hstore]
  refine ⟨rfl, ?_⟩
  have hr := roundToFloat64_exact i hlo hhi
  have hi := intOfFloat64_exact i (by omega) (by omega)
  unfold ValidateToken
  rw [jwtParse_issued key e0.now e1.now i hsigned]
  simp [JWS.claims, Claim.decode, TokenRepo.IsTokenValid, tokenIsValid, hquery, hstored, hr, hi]

/-- C12 at a concrete input: user 7 logs in at the sample instant and the token
is validated at the same instant. -/
theorem generate_then_validate_witness :
    ValidateToken sampleKey (TokenEnv.healthy sampleInstant)
        (GenerateToken sampleKey (TokenEnv.healthy sampleInstant) [] 7).1
        (issuedToken sampleKey sampleInstant 7) = (7, none) :=
  (generate_then_validate sampleKey (TokenEnv.healthy sampleInstant)
    (TokenEnv.healthy sampleInstant) [] 7 (by decide) (by decide) rfl rfl (by decide)
    (by decide)).2

/-- C12 as stated fails for a large id: the token generated for the user id
`2 ^ 53 + 1` validates, immediately and without revocation, to the id `2 ^ 53`,
because the claim is decoded as a `float64`. -/
theorem generate_then_validate_large_id :
    (GenerateToken sampleKey (TokenEnv.healthy sampleInstant) [] largeID).2
      = .ok (issuedToken sampleKey sampleInstant largeID, sampleInstant + day) ∧
    ValidateToken sampleKey (TokenEnv.healthy sampleInstant)
        (GenerateToken sampleKey (TokenEnv.healthy sampleInstant) [] largeID).1
        (issuedToken sampleKey sampleInstant largeID) = (2 ^ 53, none) ∧
    (2 ^ 53 : Int) ≠ largeID :=
  ⟨rfl, by decide, by decide⟩

/-- C13: revoke, then validate.  For every token issued by `GenerateToken` (any
secret, instant and user) and every token table: after a `RevokeToken` that
the store executed, `ValidateToken` returns id 0 and the error
`token is invalid or revoked` while the signed expiry still lies ahead,
whatever the validity query does. -/
theorem revoke_then_validate (key : String) (n0 : Nat) (i : Int) (e1 e2 : TokenEnv)
    (ts : List TokenRow)
    (hrevoke : e1.revokeTokenFails = false)
    (hsigned : (e2.now : Int) < roundToFloat64 (Unix (n0 + day)) * (second : Int)) :
    (RevokeToken e1 ts (issuedToken key n0 i)).2 = none ∧
    ValidateToken key e2 (RevokeToken e1 ts (issuedToken key n0 i)).1 (issuedToken key n0 i)
      = (0, some (.New "token is invalid or revoked")) := by
  have hall := allRevoked_RevokeToken e1 ts (issuedToken key n0 i) hrevoke
  have hv := tokenIsValid_of_allRevoked hall e2.dbNow
  constructor
  · rw [RevokeToken_eq]
    simp [TokenRepo.RevokeToken, hrevoke]
  · unfold ValidateToken
    rw [jwtParse_issued key n0 e2.now i hsigned]
    simp only [JWS.claims, Claim.decode, TokenRepo.IsTokenValid, hv]
    cases e2.isTokenValidFails <;> simp

/-- C13 at a concrete input: user 7 logs in, logs out, and the token is
presented again at the same instant. -/
theorem revoke_then_validate_witness :
    ValidateToken sampleKey (TokenEnv.healthy sampleInstant)
        (RevokeToken (TokenEnv.healthy sampleInstant)
          (GenerateToken sampleKey (TokenEnv.healthy sampleInstant) [] 7).1
          (issuedToken sampleKey sampleInstant 7)).1
        (issuedToken sampleKey sampleInstant 7)
      = (0, some (.New "token is invalid or revoked")) :=
  (revoke_then_validate sampleKey sampleInstant 7 (TokenEnv.healthy sampleInstant)
    (TokenEnv.healthy sampleInstant)
    (GenerateToken sampleKey (TokenEnv.healthy sampleInstant) [] 7).1 rfl (by decide)).2

/-- C14: both checks.  When `ValidateToken` returns no error, `jwt.Parse`
accepted the token (well formed, HMAC algorithm, signature under the secret,
expiry ahead), the validity query ran, and the table holds a row of this token
string that is unexpired and not revoked.  When the validity query fails,
`ValidateToken` returns id 0 and the error `token is invalid or revoked` or an
earlier error: it never accepts. -/
theorem validate_needs_both_checks (key : String) (e : TokenEnv) (ts : List TokenRow)
    (t : TokenString) :
    ((ValidateToken key e ts t).2 = none →
      (∃ p, jwtParse (keyFunc key) e.now t = .ok p ∧ p.Valid = true) ∧
      e.isTokenValidFails = false ∧
      ∃ r ∈ ts, r.token = t ∧ r.expires_at > e.dbNow ∧ r.is_revoked = false) ∧
    (e.isTokenValidFails = true →
      (ValidateToken key e ts t).1 = 0 ∧ (ValidateToken key e ts t).2 ≠ none) := by
  constructor
  · unfold ValidateToken
    cases hp : jwtParse (keyFunc key) e.now t with
    | error err => simp
    | ok p =>
      simp only
      split
      · simp
      · rename_i hvalid
        split
        · unfold TokenRepo.IsTokenValid
          cases hf : e.isTokenValidFails with
          | true => simp
          | false =>
            simp only [Bool.false_eq_true, if_false]
            split
            · simp
            · rename_i hv
              intro _
              refine ⟨⟨p, rfl, by simpa using hvalid⟩, trivial, ?_⟩
              have hv2 : tokenIsValid e.dbNow ts t = true := by simpa using hv
              unfold tokenIsValid at hv2
              rw [List.any_eq_true] at hv2
              obtain ⟨r, hr, hc⟩ := hv2
              simp only [Bool.and_eq_true, beq_iff_eq, decide_eq_true_eq] at hc
              exact ⟨r, hr, hc.1.1, hc.1.2, hc.2⟩
        · simp
  · intro hf
    unfold ValidateToken
    cases jwtParse (keyFunc key) e.now t with
    | error err => simp
    | ok p =>
      simp only
      split
      · simp
      · split
        · simp [TokenRepo.IsTokenValid, hf]
        · simp

/-- C14 at concrete inputs: a token that validates has its row, and the same
token is rejected when the validity query fails. -/
theorem validate_needs_both_checks_witness :
    (∃ r ∈ (GenerateToken sampleKey (TokenEnv.healthy sampleInstant) [] 7).1,
      r.token = issuedToken sampleKey sampleInstant 7 ∧ r.expires_at > sampleInstant ∧
      r.is_revoked = false) ∧
    (ValidateToken sampleKey validityQueryFails
      (GenerateToken sampleKey (TokenEnv.healthy sampleInstant) [] 7).1
      (issuedToken sampleKey sampleInstant 7)).2 ≠ none :=
  ⟨((validate_needs_both_checks sampleKey (TokenEnv.healthy sampleInstant)
      (GenerateToken sampleKey (TokenEnv.healthy sampleInstant) [] 7).1
      (issuedToken sampleKey sampleInstant 7)).1 (by decide)).2.2,
    ((validate_needs_both_checks sampleKey validityQueryFails
      (GenerateToken sampleKey (TokenEnv.healthy sampleInstant) [] 7).1
      (issuedToken sampleKey sampleInstant 7)).2 rfl).2⟩

/-- C15: expired tokens.  A token issued by `GenerateToken` is rejected with id
0 and an error as soon as its expiry instant has passed on the clock of the
service (the signed `exp`, in seconds below `2 ^ 53`, is then not ahead), and
every token string is rejected when each of its rows has expired on the clock
of the store; neither route looks at the revocation flag. -/
theorem validate_expired (key : String) (n0 : Nat) (i : Int) (e : TokenEnv)
    (ts : List TokenRow)
    (hpassed : (Unix (n0 + day) ≤ 2 ^ 53 ∧ n0 + day ≤ e.now) ∨
      ∀ r ∈ ts, r.token = issuedToken key n0 i → r.expires_at ≤ e.dbNow) :
    (ValidateToken key e ts (issuedToken key n0 i)).1 = 0 ∧
    (ValidateToken key e ts (issuedToken key n0 i)).2 ≠ none := by
  rcases hpassed with ⟨hsmall, hnow⟩ | hrows
  · have hu : (0 : Int) ≤ Unix (n0 + day) := by unfold Unix; exact Int.natCast_nonneg _
    have hr := roundToFloat64_exact (Unix (n0 + day)) (by omega) hsmall
    have hle : Unix (n0 + day) * (second : Int) ≤ (e.now : Int) := by
      have h1 : (n0 + day) / second * second ≤ n0 + day := Nat.div_mul_le_self _ _
      have h2 : (n0 + day) / second * second ≤ e.now := le_trans h1 hnow
      unfold Unix
      exact_mod_cast h2
    have hnot : ¬ ((e.now : Int) < roundToFloat64 (Unix (n0 + day)) * (second : Int)) := by
      rw [hr]; omega
    simp [ValidateToken, jwtParse, keyFunc, issuedToken, hnot]
  · apply ValidateToken_of_not_valid
    unfold tokenIsValid
    rw [List.any_eq_false]
    intro r hr
    by_cases ht : r.token = issuedToken key n0 i
    · have := hrows r hr ht
      simp [ht, Nat.not_lt.mpr this]
    · simp [ht]

/-- C15 at a concrete input: the token of user 7 presented exactly at its
expiry instant. -/
theorem validate_expired_witness :
    (ValidateToken sampleKey (TokenEnv.healthy (sampleInstant + day))
        (GenerateToken sampleKey (TokenEnv.healthy sampleInstant) [] 7).1
        (issuedToken sampleKey sampleInstant 7)).1 = 0 ∧
    (ValidateToken sampleKey (TokenEnv.healthy (sampleInstant + day))
        (GenerateToken sampleKey (TokenEnv.healthy sampleInstant) [] 7).1
        (issuedToken sampleKey sampleInstant 7)).2 ≠ none :=
  validate_expired sampleKey sampleInstant 7 (TokenEnv.healthy (sampleInstant + day))
    (GenerateToken sampleKey (TokenEnv.healthy sampleInstant) [] 7).1
    (Or.inl ⟨by decide, Nat.le_refl _⟩)

/-- C16 (as amended): once `RevokeToken(t)` was executed by the store, then
after every sequence of `GenerateToken`, `ValidateToken` and `RevokeToken`
calls in which no `GenerateToken` stores the token string `t` again, the
persisted validity check for `t` is false at every instant and
`ValidateToken(t)` returns id 0 and an error. -/
theorem revoked_stays_revoked (key : String) (e0 : TokenEnv) (ts0 : List TokenRow)
    (t : TokenString) (ops : List (TokenEnv × TokenOp))
    (hrevoke : e0.revokeTokenFails = false)
    (hfresh : ∀ x ∈ ops, storesString key t x = false) :
    ∀ e : TokenEnv,
      tokenIsValid e.dbNow (runTokenOps key (RevokeToken e0 ts0 t).1 ops) t = false ∧
      (ValidateToken key e (runTokenOps key (RevokeToken e0 ts0 t).1 ops) t).1 = 0 ∧
      (ValidateToken key e (runTokenOps key (RevokeToken e0 ts0 t).1 ops) t).2 ≠ none := by
  intro e
  have hall := allRevoked_runTokenOps key t ops (RevokeToken e0 ts0 t).1
    (allRevoked_RevokeToken e0 ts0 t hrevoke) hfresh
  have hv := tokenIsValid_of_allRevoked hall e.dbNow
  exact ⟨hv, ValidateToken_of_not_valid key e _ t hv⟩

/-- C16 at a concrete input: user 7 logs in and out, then user 8 logs in, the
token of user 7 is presented and revoked once more. -/
theorem revoked_stays_revoked_witness :
    tokenIsValid sampleInstant
      (runTokenOps sampleKey
        (RevokeToken (TokenEnv.healthy sampleInstant)
          (GenerateToken sampleKey (TokenEnv.healthy sampleInstant) [] 7).1
          (issuedToken sampleKey sampleInstant 7)).1
        [(TokenEnv.healthy sampleInstant, .generate 8),
         (TokenEnv.healthy sampleInstant, .validate (issuedToken sampleKey sampleInstant 7)),
         (TokenEnv.healthy sampleInstant, .revoke (issuedToken sampleKey sampleInstant 7))])
      (issuedToken sampleKey sampleInstant 7) = false :=
  (revoked_stays_revoked sampleKey (TokenEnv.healthy sampleInstant)
    (GenerateToken sampleKey (TokenEnv.healthy sampleInstant) [] 7).1
    (issuedToken sampleKey sampleInstant 7)
    [(TokenEnv.healthy sampleInstant, .generate 8),
     (TokenEnv.healthy sampleInstant, .validate (issuedToken sampleKey sampleInstant 7)),
     (TokenEnv.healthy sampleInstant, .revoke (issuedToken sampleKey sampleInstant 7))]
    rfl (by decide) (TokenEnv.healthy sampleInstant)).1

/-- C16 as stated fails: user 7 logs in, the token is revoked, and user 7 logs
in again a microsecond later.  `GenerateToken` signs the identical token string
(same user, same expiry second) and stores it as a fresh unrevoked row; the
persisted validity check for the revoked string is true again and
`ValidateToken` accepts it. -/
theorem revoked_string_valid_again :
    (RevokeToken (TokenEnv.healthy sampleInstant)
      (GenerateToken sampleKey (TokenEnv.healthy sampleInstant) [] 7).1
      (issuedToken sampleKey sampleInstant 7)).2 = none ∧
    tokenIsValid sampleInstant
      (RevokeToken (TokenEnv.healthy sampleInstant)
        (GenerateToken sampleKey (TokenEnv.healthy sampleInstant) [] 7).1
        (issuedToken sampleKey sampleInstant 7)).1
      (issuedToken sampleKey sampleInstant 7) = false ∧
    issuedToken sampleKey (sampleInstant + 1000) 7 = issuedToken sampleKey sampleInstant 7 ∧
    tokenIsValid (sampleInstant + 1000)
      (runTokenOps sampleKey
        (RevokeToken (TokenEnv.healthy sampleInstant)
          (GenerateToken sampleKey (TokenEnv.healthy sampleInstant) [] 7).1
          (issuedToken sampleKey sampleInstant 7)).1
        [(TokenEnv.healthy (sampleInstant + 1000), .generate 7)])
      (issuedToken sampleKey sampleInstant 7) = true ∧
    ValidateToken sampleKey (TokenEnv.healthy (sampleInstant + 1000))
      (runTokenOps sampleKey
        (RevokeToken (TokenEnv.healthy sampleInstant)
          (GenerateToken sampleKey (TokenEnv.healthy sampleInstant) [] 7).1
          (issuedToken sampleKey sampleInstant 7)).1
        [(TokenEnv.healthy (sampleInstant + 1000), .generate 7)])
      (issuedToken sampleKey sampleInstant 7) = (7, none) := by
  decide

/-- C17: revocation is idempotent.  For every token string and every token
table, a `RevokeToken` that the store executes returns `nil`, and a second
`RevokeToken` of the same string, executed or failing, leaves the table as the
first one left it. -/
theorem revoke_idempotent (e1 e2 : TokenEnv) (ts : List TokenRow) (t : TokenString)
    (h : e1.revokeTokenFails = false) :
    (RevokeToken e1 ts t).2 = none ∧
    (RevokeToken e2 (RevokeToken e1 ts t).1 t).1 = (RevokeToken e1 ts t).1 := by
  simp only [RevokeToken_eq]
  constructor
  · simp [TokenRepo.RevokeToken, h]
  · unfold TokenRepo.RevokeToken
    simp only [h, Bool.false_eq_true, if_false]
    split
    · rfl
    · simp only [List.map_map]
      apply List.map_congr_left
      intro r _
      by_cases h0 : r.token = t <;> simp [h0]

/-- C17 at concrete inputs: revoking an unknown token string on the empty
table, and revoking the token of user 7 twice. -/
theorem revoke_idempotent_witness :
    (RevokeToken (TokenEnv.healthy sampleInstant) [] (.malformed "not a token")).2 = none ∧
    (RevokeToken (TokenEnv.healthy sampleInstant)
      (RevokeToken (TokenEnv.healthy sampleInstant)
        (GenerateToken sampleKey (TokenEnv.healthy sampleInstant) [] 7).1
        (issuedToken sampleKey sampleInstant 7)).1
      (issuedToken sampleKey sampleInstant 7)).1
      = (RevokeToken (TokenEnv.healthy sampleInstant)
          (GenerateToken sampleKey (TokenEnv.healthy sampleInstant) [] 7).1
          (issuedToken sampleKey sampleInstant 7)).1 :=
  ⟨(revoke_idempotent (TokenEnv.healthy sampleInstant) (TokenEnv.healthy sampleInstant) []
      (.malformed "not a token") rfl).1,
    (revoke_idempotent (TokenEnv.healthy sampleInstant) (TokenEnv.healthy sampleInstant)
      (GenerateToken sampleKey (TokenEnv.healthy sampleInstant) [] 7).1
      (issuedToken sampleKey sampleInstant 7) rfl).2⟩

/-- C18: referrer immutability.  From every store, after every sequence of
`Register`, `Login`, `UserStatus`, `UserLeaderboard`, `AddReferrer` and
`TaskComplete` calls, whatever the driver and the hash function do, a user
whose referrer is `r` still has the referrer `r`. -/
theorem referrer_immutable (ops : List (Env × Bcrypt × Operation)) :
    ∀ (db : DB) (v r : Int), referrerOf db.committed v = some (some r) →
      referrerOf (runOperations db ops).committed v = some (some r) := by
  induction ops with
  | nil => intro db v r h; exact h
  | cons x rest ih =>
    intro db v r h
    rcases x with ⟨e, bc, op⟩
    simp only [runOperations]
    exact ih _ v r ((Operation_effect e bc db op).referrer_kept v r h)

/-- C18 at the sample store: user 1 has the referrer 2; after calls of every
operation, two of them attempts to name user 3, the referrer is still 2. -/
theorem referrer_immutable_witness :
    referrerOf referredDB.committed 1 = some (some 2) ∧
    referrerOf (runOperations referredDB sampleOperations).committed 1 = some (some 2) :=
  ⟨by decide, referrer_immutable sampleOperations referredDB 1 2 (by decide)⟩

/-- C19 (as amended): from a store where no balance is negative and no task of
the catalog has a negative reward, after every sequence of `Register`,
`AddReferrer` and `TaskComplete` calls no balance is negative and the balance
of every user is at least what it was. -/
theorem balances_never_decrease (ops : List (Env × Bcrypt × Mutation)) :
    ∀ db : DB, (∀ u ∈ db.committed.users, 0 ≤ u.Balance) →
      (∀ k ∈ db.committed.tasks, 0 ≤ k.Reward) →
      (∀ u ∈ (runMutations db ops).committed.users, 0 ≤ u.Balance) ∧
      ∀ v b, balanceOf db.committed v = some b →
        ∃ b1, balanceOf (runMutations db ops).committed v = some b1 ∧ b ≤ b1 := by
  induction ops with
  | nil => intro db hbal _; exact ⟨hbal, fun v b h => ⟨b, h, le_refl b⟩⟩
  | cons x rest ih =>
    intro db hbal hrew
    rcases x with ⟨e, bc, op⟩
    simp only [runMutations]
    have heff := Mutation_effect e bc db op
    have hrew1 : ∀ k ∈ (op.run e bc db).1.committed.tasks, 0 ≤ k.Reward := by
      rw [heff.tasks_eq]; exact hrew
    obtain ⟨h1, h2⟩ := ih _ (heff.balances_nonneg hrew hbal) hrew1
    refine ⟨h1, ?_⟩
    intro v b hv
    obtain ⟨b1, hb1, hle1⟩ := heff.balance_grows hrew v b hv
    obtain ⟨b2, hb2, hle2⟩ := h2 v b1 hb1
    exact ⟨b2, hb2, le_trans hle1 hle2⟩

/-- C19 at the sample store, whose only reward is 50: user 2 starts with the
balance 20 and has at least 20 after the calls. -/
theorem balances_never_decrease_witness :
    balanceOf sampleDB.committed 2 = some 20 ∧
    ∃ b1, balanceOf (runMutations sampleDB sampleMutations).committed 2 = some b1 ∧ 20 ≤ b1 :=
  ⟨by decide,
    (balances_never_decrease sampleMutations sampleDB (by decide) (by decide)).2 2 20
      (by decide)⟩

/-- C19 as stated fails for a catalog with a negative reward: on a store where
no balance is negative, user 1 (balance 0) completes the task 2 of reward -50;
`TaskComplete` returns `nil` and the balance of user 1 is -50. -/
theorem negative_reward_lowers_balance :
    (∀ u ∈ debitDB.committed.users, 0 ≤ u.Balance) ∧
    balanceOf debitDB.committed 1 = some 0 ∧
    (Mutation.run (Env.healthy 9) sampleBcrypt debitDB (.taskComplete 1 ⟨2⟩)).2 = none ∧
    balanceOf
      (runMutations debitDB [(Env.healthy 9, sampleBcrypt, .taskComplete 1 ⟨2⟩)]).committed 1
      = some (-50) := by
  decide

/-- C20: the leaderboard.  Without a failure of the query `UserLeaderboard`
returns a list, and whenever it returns a list, the list is the one the
repository returned, unchanged; it has at most 10 entries, is in non-increasing
order of balance, and every entry is the id, name and balance of a user row of
the store. -/
theorem leaderboard_ok (e : Env) (db : DB) :
    (e.getUserLeaderboardFault = .none →
      (UserLeaderboard e db).2 = .ok (leaderboardRows db.committed)) ∧
    ∀ l, (UserLeaderboard e db).2 = .ok l →
      (GetUserLeaderboard e db).2 = (l, none) ∧
      l.length ≤ 10 ∧
      l.Pairwise (fun a b => b.Balance ≤ a.Balance) ∧
      ∀ x ∈ l, ∃ u ∈ db.committed.users,
        x = { ID := u.ID, UserName := u.UserName, Balance := u.Balance } := by
  constructor
  · intro h
    simp [UserLeaderboard, GetUserLeaderboard, h]
  · intro l hl
    have hspec := leaderboardRows_spec db.committed
    unfold UserLeaderboard GetUserLeaderboard at hl
    unfold GetUserLeaderboard
    cases hf : e.getUserLeaderboardFault with
    | none =>
      rw [hf] at hl
      simp only [Except.ok.injEq] at hl
      subst hl
      exact ⟨rfl, hspec⟩
    | query => rw [hf] at hl; simp at hl
    | scan n err => rw [hf] at hl; simp at hl
    | iteration n err => rw [hf] at hl; simp at hl

/-- C20 at the sample store: user 2 (balance 20) comes before user 1
(balance 0). -/
theorem leaderboard_ok_witness :
    (UserLeaderboard (Env.healthy 9) sampleDB).2
      = .ok [{ ID := 2, UserName := "bobby2", Balance := 20 },
             { ID := 1, UserName := "alice1", Balance := 0 }] ∧
    ([{ ID := 2, UserName := "bobby2", Balance := 20 },
      { ID := 1, UserName := "alice1", Balance := 0 }] : List UserLeaderDTO).length ≤ 10 :=
  ⟨(leaderboard_ok (Env.healthy 9) sampleDB).1 rfl,
    ((leaderboard_ok (Env.healthy 9) sampleDB).2 _
      ((leaderboard_ok (Env.healthy 9) sampleDB).1 rfl)).2.1⟩

/-! ## Lemmas for the request helpers, the validator and the completion check -/

/-- The two outcomes of `validateUserID`: the context holds an `int`, the path
parameter parses to the same number, nothing is written and the number is
returned; or one error response is written, with status 400 exactly when the
context holds an `int` and the path parameter does not parse, and with status
401 otherwise. -/
theorem validateUserID_cases (c : Context) :
    (∃ n, c.user_id = some (.int n) ∧ Atoi c.paramID = .ok n ∧
      validateUserID c = (c, n, true)) ∨
    (∃ status message,
      validateUserID c = (c.JSON status (.error message), 0, false) ∧
      (¬ ∃ n, c.user_id = some (.int n) ∧ Atoi c.paramID = .ok n) ∧
      ((status = 400 ∧ (∃ n, c.user_id = some (.int n)) ∧ ∃ err, Atoi c.paramID = .error err) ∨
       (status = 401 ∧
          ¬ ((∃ n, c.user_id = some (.int n)) ∧ ∃ err, Atoi c.paramID = .error err)))) := by
  cases hu : c.user_id with
  | none =>
    right
    exact ⟨401, "User ID missing in context",
      by simp [validateUserID, getUserID, hu, logAndHandleError, GoError.Error],
      by simp, Or.inr ⟨rfl, by simp⟩⟩
  | some v =>
    cases v with
    | nil =>
      right
      exact ⟨401, "User ID missing in context",
        by simp [validateUserID, getUserID, hu, logAndHandleError, GoError.Error],
        by simp, Or.inr ⟨rfl, by simp⟩⟩
    | other name =>
      right
      exact ⟨401, "Invalid user ID type in context",
        by simp [validateUserID, getUserID, hu, logAndHandleError, GoError.Error],
        by simp, Or.inr ⟨rfl, by simp⟩⟩
    | int n =>
      cases ha : Atoi c.paramID with
      | error err =>
        right
        exact ⟨400, "Invalid user ID type",
          by simp [validateUserID, getUserID, hu, ha, logAndHandleError],
          by simp, Or.inl ⟨rfl, ⟨n, rfl⟩, ⟨err, rfl⟩⟩⟩
      | ok m =>
        by_cases hnm : n = m
        · left
          subst hnm
          exact ⟨n, rfl, rfl, by simp [validateUserID, getUserID, hu, ha]⟩
        · right
          refine ⟨401, "User ID mismatch",
            by simp [validateUserID, getUserID, hu, ha, hnm, logAndHandleError], ?_,
            Or.inr ⟨rfl, by simp⟩⟩
          rintro ⟨k, hk1, hk2⟩
          simp only [Option.some.injEq, Any.int.injEq, Except.ok.injEq] at hk1 hk2
          exact hnm (hk1.trans hk2.symm)

/-- The status handler calls the service at most once, for the authenticated
user. -/
theorem UserStatusHandler_calls (h : UserService) (c : Context) :
    guardedCalls c (UserStatusHandler h c) := by
  unfold UserStatusHandler
  rcases validateUserID_cases c with ⟨n, hu, ha, hv⟩ | ⟨status, message, hv, _, _⟩
  · rw [hv]
    simp only
    right
    cases h.UserStatus n <;> exact ⟨.UserStatus n, rfl, hu, ha⟩
  · rw [hv]
    exact Or.inl rfl

/-- The referrer handler calls the service at most once, for the authenticated
user. -/
theorem ReferrerHandler_calls (h : UserService) (c : Context) :
    guardedCalls c (ReferrerHandler h c) := by
  unfold ReferrerHandler
  rcases validateUserID_cases c with ⟨n, hu, ha, hv⟩ | ⟨status, message, hv, _, _⟩
  · rw [hv]
    simp only
    cases c.referrerJSON with
    | none => exact Or.inl rfl
    | some referrer =>
      right
      simp only
      cases h.AddReferrer n referrer <;> exact ⟨.AddReferrer n referrer, rfl, hu, ha⟩
  · rw [hv]
    exact Or.inl rfl

/-- The task handler calls the service at most once, for the authenticated
user. -/
theorem TaskCompleteHandler_calls (h : UserService) (c : Context) :
    guardedCalls c (TaskCompleteHandler h c) := by
  unfold TaskCompleteHandler
  rcases validateUserID_cases c with ⟨n, hu, ha, hv⟩ | ⟨status, message, hv, _, _⟩
  · rw [hv]
    simp only
    cases c.taskJSON with
    | none => exact Or.inl rfl
    | some task =>
      right
      simp only
      cases h.TaskComplete n task <;> exact ⟨.TaskComplete n task, rfl, hu, ha⟩
  · rw [hv]
    exact Or.inl rfl

/-- A step that consumes one character of a class, repeated at most `n` times
and followed by a continuation that accepts the end of the text, matches
exactly the texts of at most `n` characters of the class, wherever the
position is. -/
theorem matchUpTo_class_end (ranges : List (Char × Char))
    (step : (MatchState → Bool) → MatchState → Bool) (k : MatchState → Bool)
    (hstep : ∀ k st, step k st = (Regex.charClass ranges).run k st)
    (hk : ∀ st, k st = st.rest.isEmpty) (n : Nat) :
    ∀ (b : Bool) (l : List Char),
      matchUpTo step n k { atStart := b, rest := l } = true ↔
        l.length ≤ n ∧ ∀ x ∈ l, inClass ranges x = true := by
  induction n with
  | zero =>
    intro b l
    rw [matchUpTo, hk]
    cases l <;> simp
  | succ n ih =>
    intro b l
    rw [matchUpTo, hstep, hk, Regex.run]
    cases l with
    | nil => simp
    | cons ch rest =>
      have h := ih false rest
      simp only [List.isEmpty_cons, Bool.or_false, Bool.and_eq_true, List.length_cons,
        Nat.add_le_add_iff_right, List.mem_cons, forall_eq_or_imp]
      rw [h]
      tauto

/-- A step that consumes one character of a class, repeated exactly `n` times,
matches the texts that begin with `n` characters of the class, when the
continuation does not look at the beginning-of-text mark. -/
theorem matchTimes_class (ranges : List (Char × Char))
    (step : (MatchState → Bool) → MatchState → Bool) (k : MatchState → Bool)
    (hstep : ∀ k st, step k st = (Regex.charClass ranges).run k st)
    (hk : ∀ b l, k { atStart := b, rest := l } = k { atStart := false, rest := l }) (n : Nat) :
    ∀ (b : Bool) (l : List Char),
      matchTimes step n k { atStart := b, rest := l } = true ↔
        n ≤ l.length ∧ (∀ x ∈ l.take n, inClass ranges x = true) ∧
          k { atStart := false, rest := l.drop n } = true := by
  induction n with
  | zero =>
    intro b l
    rw [matchTimes, hk b l]
    simp
  | succ n ih =>
    intro b l
    rw [matchTimes, hstep, Regex.run]
    cases l with
    | nil => simp
    | cons ch rest =>
      have h := ih false rest
      simp only [Bool.and_eq_true, List.length_cons, Nat.add_le_add_iff_right,
        List.take_succ_cons, List.mem_cons, forall_eq_or_imp, List.drop_succ_cons]
      rw [h]
      tauto

/-- The pattern begins with `^`: it does not match at a position that is not
the beginning of the text. -/
theorem usernameRegex_not_at_start (l : List Char) :
    usernameRegex.run (fun _ => true) { atStart := false, rest := l } = false := by
  simp [usernameRegex, Regex.run]

/-- The pattern matches at no position after the beginning of the text. -/
theorem searchFrom_usernameRegex_false (l : List Char) :
    searchFrom usernameRegex false l = false := by
  induction l with
  | nil => rw [searchFrom, usernameRegex_not_at_start]
  | cons ch rest ih => rw [searchFrom, usernameRegex_not_at_start, ih]; rfl

/-- The class `[a-zA-Z]`. -/
theorem inClass_letter (ch : Char) :
    inClass [('a', 'z'), ('A', 'Z')] ch = isASCIILetter ch := by
  simp [inClass, isASCIILetter]

/-- The class `[a-zA-Z0-9]`. -/
theorem inClass_alnum (ch : Char) :
    inClass [('a', 'z'), ('A', 'Z'), ('0', '9')] ch = (isASCIILetter ch || isASCIIDigit ch) := by
  simp [inClass, isASCIILetter, isASCIIDigit, Bool.or_assoc]

/-- The pattern at the beginning of a text that is not empty: a letter, then
five characters of the second class, then at most nine more, then the end. -/
theorem usernameRegex_at_start (ch : Char) (rest : List Char) :
    usernameRegex.run (fun _ => true) { atStart := true, rest := ch :: rest } = true ↔
      isASCIILetter ch = true ∧ 5 ≤ rest.length ∧ rest.length ≤ 14 ∧
        ∀ x ∈ rest, (isASCIILetter x || isASCIIDigit x) = true := by
  have hup := matchUpTo_class_end [('a', 'z'), ('A', 'Z'), ('0', '9')]
    (fun k st => (Regex.charClass [('a', 'z'), ('A', 'Z'), ('0', '9')]).run k st)
    (Regex.endText.run (fun _ => true)) (fun _ _ => rfl)
    (by intro st; simp [Regex.run]) 9
  have htimes := matchTimes_class [('a', 'z'), ('A', 'Z'), ('0', '9')]
    (fun k st => (Regex.charClass [('a', 'z'), ('A', 'Z'), ('0', '9')]).run k st)
    (matchUpTo (fun k st => (Regex.charClass [('a', 'z'), ('A', 'Z'), ('0', '9')]).run k st) 9
      (Regex.endText.run (fun _ => true)))
    (fun _ _ => rfl)
    (by
      intro b l
      rw [Bool.eq_iff_iff, hup b l, hup false l])
    5 false rest
  have hrun : usernameRegex.run (fun _ => true) { atStart := true, rest := ch :: rest } =
      (inClass [('a', 'z'), ('A', 'Z')] ch &&
        matchTimes (fun k st => (Regex.charClass [('a', 'z'), ('A', 'Z'), ('0', '9')]).run k st)
          5 (matchUpTo
            (fun k st => (Regex.charClass [('a', 'z'), ('A', 'Z'), ('0', '9')]).run k st) 9
            (Regex.endText.run (fun _ => true))) { atStart := false, rest := rest }) := by
    rw [usernameRegex]
    rfl
  rw [hrun, Bool.and_eq_true, htimes, hup, inClass_letter]
  simp only [inClass_alnum, List.length_drop]
  constructor
  · rintro ⟨hl, h5, hpre, h9, hpost⟩
    refine ⟨hl, h5, by omega, ?_⟩
    intro x hx
    rw [← List.take_append_drop 5 rest] at hx
    rcases List.mem_append.mp hx with hx | hx
    · exact hpre x hx
    · exact hpost x hx
  · rintro ⟨hl, h5, h14, hall⟩
    exact ⟨hl, h5, fun x hx => hall x (List.mem_of_mem_take hx), by omega,
      fun x hx => hall x (List.mem_of_mem_drop hx)⟩

/-- The transaction body of `TaskComplete` returns `ErrIsCompletedTask` only
when its own existence check found the completion record in the tables the
transaction reads. -/
theorem TaskCompleteTx_already_completed (e : Env) (db : DB) (u : Int) (k : Task)
    (t0 : Tables) (htx : db.tx = some t0)
    (h : (TaskCompleteTx e db u k).2.2 = some .ErrIsCompletedTask) :
    isCompleted t0 u k.ID = true := by
  revert h
  unfold TaskCompleteTx isCompleted
  simp only [IsCompletedTask, txTables, htx, DB.log]
  cases e.isCompletedTaskFails with
  | true => intro h; simp at h
  | false =>
    simp only [Bool.false_eq_true, if_false]
    split
    · rename_i hc
      intro _
      exact hc
    · simp only [AddPoint, AddCompletedTask, txTables, DB.log]
      cases e.addPointFails with
      | true => intro h; simp at h
      | false =>
        simp only [Bool.false_eq_true, if_false]
        cases e.addCompletedTaskFails with
        | true => intro h; simp at h
        | false => intro h; simp at h

/-! ## The claims on the request guard and the user name validator -/

/-- C22: the guard of the handlers.  `validateUserID` returns `(id, true)` if
and only if the context holds the `int` `id` under `user_id` and the path
parameter `id` parses (`strconv.Atoi`) to the same number; it then writes
nothing.  In every other case it returns `(0, false)` and writes one error
response: status 400 when the context holds an `int` and the path parameter
does not parse, status 401 otherwise (missing or mistyped context id, or
mismatch).  The status, referrer and task handlers call the user service at
most once, and only for the user id held by the context. -/
theorem validateUserID_spec (c : Context) :
    (∀ id, (validateUserID c).2 = (id, true) ↔
      c.user_id = some (.int id) ∧ Atoi c.paramID = .ok id) ∧
    ((validateUserID c).2.2 = true → (validateUserID c).1 = c) ∧
    ((validateUserID c).2.2 = false →
      (validateUserID c).2.1 = 0 ∧
      ∃ status message, (validateUserID c).1 = c.JSON status (.error message) ∧
        ((status = 400 ∧ (∃ n, c.user_id = some (.int n)) ∧
            ∃ err, Atoi c.paramID = .error err) ∨
         (status = 401 ∧
            ¬ ((∃ n, c.user_id = some (.int n)) ∧ ∃ err, Atoi c.paramID = .error err)))) ∧
    (∀ h : UserService,
      guardedCalls c (UserStatusHandler h c) ∧ guardedCalls c (ReferrerHandler h c) ∧
      guardedCalls c (TaskCompleteHandler h c)) := by
  refine ⟨?_, ?_, ?_, fun h =>
    ⟨UserStatusHandler_calls h c, ReferrerHandler_calls h c, TaskCompleteHandler_calls h c⟩⟩
  · intro id
    rcases validateUserID_cases c with ⟨n, hu, ha, hv⟩ | ⟨status, message, hv, hno, _⟩
    · rw [hv, hu, ha]
      simp
    · rw [hv]
      simp only [Prod.mk.injEq, Bool.false_eq_true, and_false, false_iff]
      intro hboth
      exact hno ⟨id, hboth⟩
  · rcases validateUserID_cases c with ⟨n, hu, ha, hv⟩ | ⟨status, message, hv, _, _⟩
    · rw [hv]; intro _; rfl
    · rw [hv]; intro h; simp at h
  · rcases validateUserID_cases c with ⟨n, hu, ha, hv⟩ | ⟨status, message, hv, _, hst⟩
    · rw [hv]; intro h; simp at h
    · rw [hv]
      intro _
      exact ⟨rfl, status, message, rfl, hst⟩

/-- C22 at concrete requests: user 7 on the path of user 7 passes the guard; on
the path of user 8 the guard answers 401 and the referrer handler makes no
service call. -/
theorem validateUserID_spec_witness :
    (validateUserID sampleContext).2 = (7, true) ∧
    (validateUserID sampleContext).1 = sampleContext ∧
    (validateUserID { sampleContext with paramID := "8" }).2.1 = 0 ∧
    (ReferrerHandler sampleService sampleContext).calls = [.AddReferrer 7 ⟨2⟩] ∧
    (ReferrerHandler sampleService { sampleContext with paramID := "8" }).calls = [] :=
  ⟨((validateUserID_spec sampleContext).1 7).mpr ⟨rfl, rfl⟩,
    (validateUserID_spec sampleContext).2.1 (by decide),
    ((validateUserID_spec { sampleContext with paramID := "8" }).2.2.1 (by decide)).1,
    by decide, by decide⟩

/-- C23: the user name validator.  For every string, `validateUsername` (the
search for a match of the pattern in the string) accepts exactly when the
string has between 6 and 15 characters, its first character is an ASCII letter
and every other character is an ASCII letter or digit; so the empty string, a
name of 5 or of 16 characters, a leading digit, an underscore and a trailing
newline are all rejected. -/
theorem validateUsername_spec :
    (∀ s : String, validateUsername s = usernameSpec s) ∧
    validateUsername "alice1" = true ∧ validateUsername "abcdefghijklmno" = true ∧
    validateUsername "" = false ∧ validateUsername "abc12" = false ∧
    validateUsername "abcdefghijklmnop" = false ∧ validateUsername "1alice" = false ∧
    validateUsername "alice_1" = false ∧ validateUsername "alice1\n" = false := by
  refine ⟨?_, by decide, by decide, by decide, by decide, by decide, by decide, by decide,
    by decide⟩
  intro s
  rw [Bool.eq_iff_iff]
  have hlen : s.length = s.toList.length := rfl
  unfold validateUsername MatchString usernameSpec
  rw [hlen]
  cases s.toList with
  | nil => simp [searchFrom, usernameRegex, Regex.run]
  | cons ch rest =>
    rw [searchFrom, searchFrom_usernameRegex_false, Bool.or_false, usernameRegex_at_start]
    simp only [List.length_cons, Bool.and_eq_true, decide_eq_true_eq, List.all_eq_true]
    constructor
    · rintro ⟨hl, h5, h14, hall⟩
      exact ⟨⟨by omega, by omega⟩, hl, hall⟩
    · rintro ⟨⟨h6, h15⟩, hl, hall⟩
      exact ⟨hl, by omega, by omega, hall⟩

end UserManagement
